import Mathlib

/-!
# stm32f1 clock and time-source layer

A shallow embedding of `src/stm32_native/stm32f1.cpp`.

* `uint32_t` values are natural numbers below `2 ^ 32`; every C operation that
  can leave that range is followed by an explicit reduction `% 2 ^ 32`.
* `uint64_t` values are natural numbers below `2 ^ 64`.
* Memory-mapped registers are explicit state (clock gate) or an explicit
  environment of read values together with a trace of accesses (clock setup).
-/

namespace Stm32f1

/-! ## Machine integers -/

/-- Unsigned 32-bit subtraction `a - b`, wrapping modulo `2 ^ 32`. -/
def sub32 (a b : Nat) : Nat := (a % 2 ^ 32 + (2 ^ 32 - b % 2 ^ 32)) % 2 ^ 32

/-- The cast `(int32_t)x` of a 32-bit unsigned value: two's complement. -/
def toInt32 (x : Nat) : Int :=
  if x % 2 ^ 32 < 2 ^ 31 then ((x % 2 ^ 32 : Nat) : Int) else ((x % 2 ^ 32 : Nat) : Int) - 2 ^ 32

/-! ## Build-time constants defined in the source file -/

/-- Source line 16. -/
def FLASH_ACR_LATENCY_Pos : Nat := 0

/-- Source line 17. -/
def RCC_CFGR_PLLSRC_Pos : Nat := 16

/-- Source line 18. -/
def RCC_CFGR_PLLMULL_Pos : Nat := 18

/-- Source line 19. -/
def RCC_CFGR_SWS_Pos : Nat := 2

/-- Source line 20. -/
def RCC_CFGR_SWS_Msk : Nat := 0x3 <<< RCC_CFGR_SWS_Pos

/-- Source line 22: the target core frequency, 72 MHz. -/
def CONFIG_CLOCK_FREQ : Nat := 72000000

/-- Source line 29. -/
def FREQ_PERIPH : Nat := CONFIG_CLOCK_FREQ / 2

/-! ## Time source (source lines 190-285) -/

/-- Return the number of clock ticks for a given number of microseconds
(`uint32_t` multiplication, wrapping). -/
def timer_from_us (us : Nat) : Nat := (us * (CONFIG_CLOCK_FREQ / 1000000)) % 2 ^ 32

/-- Clock ticks to microseconds (`uint32_t` division, truncating). -/
def us_from_timer (tmr : Nat) : Nat := tmr / (CONFIG_CLOCK_FREQ / 1000000)

/-- Return 1 if `time1` is before `time2`: `(int32_t)(time1 - time2) < 0`,
returned as a `uint8_t`. -/
def timer_is_before (time1 time2 : Nat) : Nat :=
  if toInt32 (sub32 time1 time2) < 0 then 1 else 0

/-- The function `micros`, given the value read from the 64-bit `us_counter`:
the cast `(uint32_t)us_counter`. -/
def micros (us_counter : Nat) : Nat := us_counter % 2 ^ 32

/-- The function `millis`, given the value read from the 64-bit `us_counter`:
`us_counter / 1000` in 64 bits, converted to the `uint32_t` return type. -/
def millis (us_counter : Nat) : Nat := (us_counter / 1000) % 2 ^ 32

/-- Return the frequency of the given peripheral clock. -/
def get_pclock_frequency (_periph_base : Nat) : Nat := FREQ_PERIPH

/-! ## Constants of the device header

The source includes the CMSIS device header through `Arduino.h`; the header is
not part of the source file, so the constants it supplies are parameters of
the model. -/

/-- The constants that `stm32f1.cpp` takes from the CMSIS device header. -/
structure Cmsis where
  APB1PERIPH_BASE : Nat
  APB2PERIPH_BASE : Nat
  AHBPERIPH_BASE : Nat
  RCC_CR_HSEON : Nat
  RCC_CR_PLLON : Nat
  RCC_CR_PLLRDY : Nat
  RCC_CFGR_PPRE1_DIV2 : Nat
  RCC_CFGR_PPRE2_DIV2 : Nat
  RCC_CFGR_ADCPRE_DIV4 : Nat
  RCC_CFGR_SW_PLL : Nat
  RCC_CFGR_SWS_PLL : Nat
  FLASH_ACR_PRFTBE : Nat

/-- The values that ST's header `stm32f103xb.h` gives to the constants; used
to instantiate the parameters at a concrete device. -/
def stm32f103xb : Cmsis where
  APB1PERIPH_BASE := 0x40000000
  APB2PERIPH_BASE := 0x40010000
  AHBPERIPH_BASE := 0x40020000
  RCC_CR_HSEON := 0x00010000
  RCC_CR_PLLON := 0x01000000
  RCC_CR_PLLRDY := 0x02000000
  RCC_CFGR_PPRE1_DIV2 := 0x00000400
  RCC_CFGR_PPRE2_DIV2 := 0x00002000
  RCC_CFGR_ADCPRE_DIV4 := 0x00004000
  RCC_CFGR_SW_PLL := 0x00000002
  RCC_CFGR_SWS_PLL := 0x00000008
  FLASH_ACR_PRFTBE := 0x00000010

/-- Layout facts about the header constants used by `clock_setup`: the three
prescaler codes and the switch code lie in the low half-word of `RCC->CFGR`
(below the PLL source bit 16 and the multiplier field, bits 18..21), the
prescaler codes leave the system-clock switch field (bits 0..1) clear, and the
prefetch-enable bit lies outside the latency field (bits 0..2) of `FLASH->ACR`. -/
def Cmsis.FieldLayout (hw : Cmsis) : Prop :=
  (hw.RCC_CFGR_PPRE1_DIV2 < 2 ^ 16 ∧ hw.RCC_CFGR_PPRE1_DIV2 % 4 = 0) ∧
  (hw.RCC_CFGR_PPRE2_DIV2 < 2 ^ 16 ∧ hw.RCC_CFGR_PPRE2_DIV2 % 4 = 0) ∧
  (hw.RCC_CFGR_ADCPRE_DIV4 < 2 ^ 16 ∧ hw.RCC_CFGR_ADCPRE_DIV4 % 4 = 0) ∧
  hw.RCC_CFGR_SW_PLL < 2 ^ 16 ∧
  hw.FLASH_ACR_PRFTBE % 8 = 0

/-! ## Peripheral clock gate (source lines 31-79) -/

/-- The three clock-enable registers of the RCC block, as plain 32-bit cells. -/
structure RccEnable where
  APB1ENR : Nat
  APB2ENR : Nat
  AHBENR : Nat
deriving DecidableEq, Repr

/-- The C expression `1 << pos` (an `int` shift) converted to `uint32_t`. The
shift is undefined for `pos >= 32`. -/
def shl1 (pos : Nat) : Option Nat := if pos < 32 then some (2 ^ pos) else none

/-- Enable a peripheral clock. The read-back statement after each write does
not change the registers. `none` stands for the undefined shift. -/
def enable_pclock (hw : Cmsis) (rcc : RccEnable) (periph_base : Nat) : Option RccEnable :=
  if periph_base < hw.APB2PERIPH_BASE then
    let pos := sub32 periph_base hw.APB1PERIPH_BASE / 0x400
    (shl1 pos).map fun m => { rcc with APB1ENR := rcc.APB1ENR ||| m }
  else if periph_base < hw.AHBPERIPH_BASE then
    let pos := sub32 periph_base hw.APB2PERIPH_BASE / 0x400
    (shl1 pos).map fun m => { rcc with APB2ENR := rcc.APB2ENR ||| m }
  else
    let pos := sub32 periph_base hw.AHBPERIPH_BASE / 0x400
    (shl1 pos).map fun m => { rcc with AHBENR := rcc.AHBENR ||| m }

/-- Check if a peripheral clock has been enabled; the masked register value
is returned through the `int` return type. -/
def is_enabled_pclock (hw : Cmsis) (rcc : RccEnable) (periph_base : Nat) : Option Int :=
  if periph_base < hw.APB2PERIPH_BASE then
    let pos := sub32 periph_base hw.APB1PERIPH_BASE / 0x400
    (shl1 pos).map fun m => toInt32 (rcc.APB1ENR &&& m)
  else if periph_base < hw.AHBPERIPH_BASE then
    let pos := sub32 periph_base hw.APB2PERIPH_BASE / 0x400
    (shl1 pos).map fun m => toInt32 (rcc.APB2ENR &&& m)
  else
    let pos := sub32 periph_base hw.AHBPERIPH_BASE / 0x400
    (shl1 pos).map fun m => toInt32 (rcc.AHBENR &&& m)

/-- The bit position that `enable_pclock` and `is_enabled_pclock` compute for
a base address: `(periph_base - domain_base) / 0x400` in the selected branch. -/
def pclock_pos (hw : Cmsis) (periph_base : Nat) : Nat :=
  if periph_base < hw.APB2PERIPH_BASE then sub32 periph_base hw.APB1PERIPH_BASE / 0x400
  else if periph_base < hw.AHBPERIPH_BASE then sub32 periph_base hw.APB2PERIPH_BASE / 0x400
  else sub32 periph_base hw.AHBPERIPH_BASE / 0x400

/-! ## Clock setup (source lines 155-188) -/

/-- Build configuration of `clock_setup`: the reference frequency (line 24 or
26) and the reference selector (line 28, `0` in the source). -/
structure Config where
  CONFIG_CLOCK_REF_FREQ : Nat
  CONFIG_STM32_CLOCK_REF_INTERNAL : Bool

/-- The variable `div` of line 164. -/
def clock_setup_div (cfg : Config) : Nat :=
  (CONFIG_CLOCK_FREQ / cfg.CONFIG_CLOCK_REF_FREQ) % 2 ^ 32

/-- The local variable `cfgr` after the `if` of lines 161-173. -/
def clock_setup_cfgr (cfg : Config) : Nat :=
  if !cfg.CONFIG_STM32_CLOCK_REF_INTERNAL then
    let div := clock_setup_div cfg
    (1 <<< RCC_CFGR_PLLSRC_Pos) ||| ((sub32 div 2) <<< RCC_CFGR_PLLMULL_Pos) % 2 ^ 32
  else
    let div2 := (CONFIG_CLOCK_FREQ / 8000000) * 2
    (0 <<< RCC_CFGR_PLLSRC_Pos) ||| ((sub32 div2 2) <<< RCC_CFGR_PLLMULL_Pos) % 2 ^ 32

/-- The registers that `clock_setup` accesses. -/
inductive Reg
  | RCC_CR
  | RCC_CFGR
  | FLASH_ACR
deriving DecidableEq, Repr

/-- One register access, tagged with the source line that makes it. -/
inductive Event
  | read (line : Nat) (reg : Reg) (val : Nat)
  | write (line : Nat) (reg : Reg) (val : Nat)
deriving DecidableEq, Repr

/-- The source line of an access. -/
def Event.line : Event → Nat
  | .read l _ _ => l
  | .write l _ _ => l

/-- Control points of `clock_setup`. -/
inductive PC
  | selectRef
  | writeCfgr
  | pllOn
  | flashAcr
  | waitLock
  | switchPll
  | waitSws
  | done
deriving DecidableEq, Repr

/-- The source line at which a control point stands (188 after the return). -/
def PC.line : PC → Nat
  | .selectRef => 165
  | .writeCfgr => 174
  | .pllOn => 175
  | .flashAcr => 178
  | .waitLock => 181
  | .switchPll => 185
  | .waitSws => 186
  | .done => 188

/-- The register harness: the value that the hardware returns to the `k`-th
read of `RCC->CR` and to the `k`-th read of `RCC->CFGR`. -/
structure Env where
  RCC_CR : Nat → Nat
  RCC_CFGR : Nat → Nat

/-- State of one execution of `clock_setup`: control point, number of reads
made of each polled register, and the accesses made so far, oldest first. -/
structure State where
  pc : PC
  crReads : Nat
  cfgrReads : Nat
  trace : List Event

/-- State at entry of `clock_setup`. -/
def State.init : State := { pc := .selectRef, crReads := 0, cfgrReads := 0, trace := [] }

/-- The value written to `RCC->CFGR` at line 174. -/
def cfgr_prescaled (hw : Cmsis) (cfg : Config) : Nat :=
  clock_setup_cfgr cfg ||| hw.RCC_CFGR_PPRE1_DIV2 ||| hw.RCC_CFGR_PPRE2_DIV2
    ||| hw.RCC_CFGR_ADCPRE_DIV4

/-- The value written to `FLASH->ACR` at line 178. -/
def flash_acr_value (hw : Cmsis) : Nat :=
  (2 <<< FLASH_ACR_LATENCY_Pos) ||| hw.FLASH_ACR_PRFTBE

/-- The value written to `RCC->CFGR` at line 185. -/
def cfgr_switch (hw : Cmsis) (cfg : Config) : Nat :=
  clock_setup_cfgr cfg ||| hw.RCC_CFGR_SW_PLL

/-- One statement of `clock_setup`. A read-modify-write `|=` is one step with
two accesses; each loop test is one step. -/
def step (hw : Cmsis) (cfg : Config) (env : Env) (s : State) : State :=
  match s.pc with
  | .selectRef =>
    if !cfg.CONFIG_STM32_CLOCK_REF_INTERNAL then
      let v := env.RCC_CR s.crReads % 2 ^ 32
      { s with pc := .writeCfgr, crReads := s.crReads + 1,
               trace := s.trace ++ [.read 165 .RCC_CR v, .write 165 .RCC_CR (v ||| hw.RCC_CR_HSEON)] }
    else
      { s with pc := .writeCfgr }
  | .writeCfgr =>
    { s with pc := .pllOn,
             trace := s.trace ++ [.write 174 .RCC_CFGR (cfgr_prescaled hw cfg)] }
  | .pllOn =>
    let v := env.RCC_CR s.crReads % 2 ^ 32
    { s with pc := .flashAcr, crReads := s.crReads + 1,
             trace := s.trace ++ [.read 175 .RCC_CR v, .write 175 .RCC_CR (v ||| hw.RCC_CR_PLLON)] }
  | .flashAcr =>
    { s with pc := .waitLock,
             trace := s.trace ++ [.write 178 .FLASH_ACR (flash_acr_value hw)] }
  | .waitLock =>
    let v := env.RCC_CR s.crReads % 2 ^ 32
    { s with pc := if v &&& hw.RCC_CR_PLLRDY = 0 then .waitLock else .switchPll,
             crReads := s.crReads + 1,
             trace := s.trace ++ [.read 181 .RCC_CR v] }
  | .switchPll =>
    { s with pc := .waitSws,
             trace := s.trace ++ [.write 185 .RCC_CFGR (cfgr_switch hw cfg)] }
  | .waitSws =>
    let v := env.RCC_CFGR s.cfgrReads % 2 ^ 32
    { s with pc := if v &&& RCC_CFGR_SWS_Msk ≠ hw.RCC_CFGR_SWS_PLL then .waitSws else .done,
             cfgrReads := s.cfgrReads + 1,
             trace := s.trace ++ [.read 186 .RCC_CFGR v] }
  | .done => s

/-- The state of `clock_setup` after `n` steps from entry. -/
def clock_setup (hw : Cmsis) (cfg : Config) (env : Env) : Nat → State
  | 0 => State.init
  | n + 1 => step hw cfg env (clock_setup hw cfg env n)

/-- Number of reads of `RCC->CR` made before the lock-wait loop: one by the
`|=` of line 175 and, on the crystal path, one by the `|=` of line 165. -/
def crReadsBeforePoll (cfg : Config) : Nat :=
  if !cfg.CONFIG_STM32_CLOCK_REF_INTERNAL then 2 else 1

/-- The multiplier field PLLMULL of a `RCC->CFGR` value: the four bits from
`RCC_CFGR_PLLMULL_Pos`. -/
def pllmulField (v : Nat) : Nat := (v >>> RCC_CFGR_PLLMULL_Pos) % 16

/-- Invariant of every reachable state of `clock_setup`: the accesses appear
in source-line order and none lies beyond the control point, the writes to
`RCC->CFGR` and `FLASH->ACR` are those of lines 174, 185 and 178, and each
statement already passed has left its access in the trace. -/
structure TraceInv (hw : Cmsis) (cfg : Config) (s : State) : Prop where
  sorted : s.trace.Pairwise (fun a b => a.line ≤ b.line)
  bound : ∀ e ∈ s.trace, e.line ≤ s.pc.line
  cfgrWrites : ∀ l v, Event.write l .RCC_CFGR v ∈ s.trace →
    (l = 174 ∧ v = cfgr_prescaled hw cfg) ∨ (l = 185 ∧ v = cfgr_switch hw cfg)
  flashWrites : ∀ l v, Event.write l .FLASH_ACR v ∈ s.trace → l = 178 ∧ v = flash_acr_value hw
  hasCfgr : 175 ≤ s.pc.line → Event.write 174 .RCC_CFGR (cfgr_prescaled hw cfg) ∈ s.trace
  hasPllOn : 178 ≤ s.pc.line → ∃ w, Event.write 175 .RCC_CR (w ||| hw.RCC_CR_PLLON) ∈ s.trace
  hasFlash : 181 ≤ s.pc.line → Event.write 178 .FLASH_ACR (flash_acr_value hw) ∈ s.trace
  hasLock : 185 ≤ s.pc.line →
    ∃ w, Event.read 181 .RCC_CR w ∈ s.trace ∧ w &&& hw.RCC_CR_PLLRDY ≠ 0
  hasSwitch : 186 ≤ s.pc.line → Event.write 185 .RCC_CFGR (cfgr_switch hw cfg) ∈ s.trace

/-! ## Delay (source lines 267-272) -/

/-- The loop `while (millis() < ms) ;` of `delay`. The argument `now k` is the
value of `us_counter` at the `k`-th read that `delay` makes of it; `iters` is
the number of completed busy-wait iterations. The result is the number of
iterations made when the loop exits, `none` when the fuel runs out first. -/
def delay_wait (ms : Nat) (now : Nat → Nat) : Nat → Nat → Option Nat
  | 0, _ => none
  | fuel + 1, iters =>
    if millis (now (iters + 1)) < ms then delay_wait ms now fuel (iters + 1) else some iters

/-- The function `delay`: `ms += millis();` (a `uint32_t` addition) followed by
the busy-wait loop. -/
def delay (ms : Nat) (now : Nat → Nat) (fuel : Nat) : Option Nat :=
  delay_wait ((ms + millis (now 0)) % 2 ^ 32) now fuel 0

/-- Reads of `us_counter` seen by a call of `delay` that starts one tick before
the millisecond value `us_counter / 1000` reaches `2 ^ 32`: the counter is
`4294967295999` at the read of `ms += millis()` and one more at each later read. -/
def readsAcrossMillisWrap (k : Nat) : Nat := 4294967295999 + k

/-! ## Tick interrupt, timer setup and microsecond delay (source lines 190-285)

The constants of the Cortex-M core header (`core_cm3.h`) are not part of the
source file and are parameters of the model. -/

/-- The constants that the time source takes from the Cortex-M core header. -/
structure CoreCmsis where
  CoreDebug_DEMCR_TRCENA_Msk : Nat
  DWT_CTRL_CYCCNTENA_Msk : Nat
  SysTick_CTRL_CLKSOURCE_Msk : Nat
  SysTick_CTRL_TICKINT_Msk : Nat
  SysTick_CTRL_ENABLE_Msk : Nat

/-- The values that ARM's header `core_cm3.h` gives to the constants; used to
instantiate the parameters. -/
def core_cm3 : CoreCmsis where
  CoreDebug_DEMCR_TRCENA_Msk := 0x01000000
  DWT_CTRL_CYCCNTENA_Msk := 0x00000001
  SysTick_CTRL_CLKSOURCE_Msk := 0x00000004
  SysTick_CTRL_TICKINT_Msk := 0x00000002
  SysTick_CTRL_ENABLE_Msk := 0x00000001

/-- The state that the time source touches: the 64-bit variable `us_counter`,
the registers of the debug and trace units, the SysTick registers and the
SysTick interrupt priority set through `NVIC_SetPriority`. -/
structure TimerRegs where
  us_counter : Nat
  CoreDebug_DEMCR : Nat
  DWT_CTRL : Nat
  DWT_CYCCNT : Nat
  SysTick_LOAD : Nat
  SysTick_VAL : Nat
  SysTick_CTRL : Nat
  SysTick_priority : Nat
deriving DecidableEq, Repr

/-- The interrupt handler: `us_counter++` on a `uint64_t`. -/
def SysTick_Handler (t : TimerRegs) : TimerRegs :=
  { t with us_counter := (t.us_counter + 1) % 2 ^ 64 }

/-- The function `timer_init` (lines 242-255). -/
def timer_init (core : CoreCmsis) (t : TimerRegs) : TimerRegs :=
  { t with
    CoreDebug_DEMCR := t.CoreDebug_DEMCR ||| core.CoreDebug_DEMCR_TRCENA_Msk
    DWT_CTRL := t.DWT_CTRL ||| core.DWT_CTRL_CYCCNTENA_Msk
    DWT_CYCCNT := 0
    SysTick_priority := 2
    SysTick_LOAD := timer_from_us 1
    SysTick_VAL := 0
    SysTick_CTRL := core.SysTick_CTRL_CLKSOURCE_Msk ||| core.SysTick_CTRL_TICKINT_Msk
      ||| core.SysTick_CTRL_ENABLE_Msk }

/-- The loop `while (timer_is_before(timer_read_time(), end)) ;` of
`delayMicroseconds`. The argument `cyc k` is the value of `DWT->CYCCNT` at the
`k`-th call of `timer_read_time`; `iters` is the number of completed busy-wait
iterations. The result is the number of iterations made when the loop exits,
`none` when the fuel runs out first. -/
def delayMicroseconds_wait (end_time : Nat) (cyc : Nat → Nat) : Nat → Nat → Option Nat
  | 0, _ => none
  | fuel + 1, iters =>
    if timer_is_before (cyc (iters + 1) % 2 ^ 32) end_time ≠ 0 then
      delayMicroseconds_wait end_time cyc fuel (iters + 1)
    else some iters

/-- The function `delayMicroseconds` (lines 274-285): the trace unit is enabled
when it is not yet, then the loop waits for `end = timer_read_time() +
timer_from_us(usecs)`. The result is the register state and the number of
busy-wait iterations. -/
def delayMicroseconds (core : CoreCmsis) (t : TimerRegs) (usecs : Nat) (cyc : Nat → Nat)
    (fuel : Nat) : Option (TimerRegs × Nat) :=
  let t1 : TimerRegs :=
    if t.CoreDebug_DEMCR &&& core.CoreDebug_DEMCR_TRCENA_Msk = 0 then
      { t with
        CoreDebug_DEMCR := t.CoreDebug_DEMCR ||| core.CoreDebug_DEMCR_TRCENA_Msk
        DWT_CTRL := t.DWT_CTRL ||| core.DWT_CTRL_CYCCNTENA_Msk }
    else t
  let end_time := (cyc 0 % 2 ^ 32 + timer_from_us usecs) % 2 ^ 32
  (delayMicroseconds_wait end_time cyc fuel 0).map fun n => (t1, n)

/-- The value of the last write to register `r` in a trace, if there is one. -/
def lastWrite (r : Reg) : List Event → Option Nat
  | [] => none
  | e :: es =>
    match lastWrite r es with
    | some v => some v
    | none =>
      match e with
      | .write _ r' v => if r' = r then some v else none
      | .read _ _ _ => none

/-! ## Pin configuration (source lines 81-139)

The pin-mode codes, the pin-numbering macros, the port table `digital_regs`
and the remap constant come from headers that are not part of the source file
and are parameters of the model. -/

/-- The constants and tables that `gpio_peripheral` takes from `gpio.h` and
the device header: the mode codes, the macro `GPIO2PORT`, the address stored
in each entry of `digital_regs`, and the pin numbers `GPIO('A', 13)` and
`GPIO('A', 14)`. -/
structure GpioHeader where
  GPIO_INPUT : Nat
  GPIO_OUTPUT : Nat
  GPIO_OPEN_DRAIN : Nat
  GPIO_ANALOG : Nat
  GPIO2PORT : Nat → Nat
  digital_regs : Nat → Nat
  GPIO_A13 : Nat
  GPIO_A14 : Nat
  AFIO_MAPR_SWJ_CFG_DISABLE : Nat

/-- Example values in the style of the Klipper headers the file was written
against (sixteen pins per port, ports at `0x400` strides from `GPIOA`); used to
instantiate the parameters. -/
def exampleGpioHeader : GpioHeader where
  GPIO_INPUT := 0
  GPIO_OUTPUT := 1
  GPIO_OPEN_DRAIN := 0x100
  GPIO_ANALOG := 3
  GPIO2PORT := fun pin => pin / 16
  digital_regs := fun port => 0x40010800 + 0x400 * port
  GPIO_A13 := 13
  GPIO_A14 := 14
  AFIO_MAPR_SWJ_CFG_DISABLE := 0x04000000

/-- The four mode codes that `gpio_peripheral` compares `mode` with are
pairwise different. -/
def GpioHeader.ModesDistinct (gh : GpioHeader) : Prop :=
  gh.GPIO_INPUT ≠ gh.GPIO_OUTPUT ∧
  gh.GPIO_INPUT ≠ gh.GPIO_OUTPUT ||| gh.GPIO_OPEN_DRAIN ∧
  gh.GPIO_INPUT ≠ gh.GPIO_ANALOG ∧
  gh.GPIO_OUTPUT ≠ gh.GPIO_OUTPUT ||| gh.GPIO_OPEN_DRAIN ∧
  gh.GPIO_OUTPUT ≠ gh.GPIO_ANALOG ∧
  gh.GPIO_OUTPUT ||| gh.GPIO_OPEN_DRAIN ≠ gh.GPIO_ANALOG

/-- The registers of one GPIO port that the source file accesses; `BSRR` is
write-only and holds the last value written to it. -/
structure GPIO_TypeDef where
  CRL : Nat
  CRH : Nat
  BSRR : Nat
deriving DecidableEq, Repr

/-- The state that `gpio_peripheral` touches: the clock-enable registers, the
ports by index in `digital_regs`, and the remap register `AFIO->MAPR`. -/
structure GpioState where
  rcc : RccEnable
  ports : Nat → GPIO_TypeDef
  AFIO_MAPR : Nat

/-- Bitwise complement `~x` of a `uint32_t`. -/
def not32 (x : Nat) : Nat := (2 ^ 32 - 1) ^^^ (x % 2 ^ 32)

/-- Enable a GPIO peripheral clock, given the address `regs` of the port.
`none` stands for the undefined shift. -/
def gpio_clock_enable (hw : Cmsis) (rcc : RccEnable) (regs : Nat) : Option RccEnable :=
  let rcc_pos := sub32 regs hw.APB2PERIPH_BASE / 0x400
  (shl1 rcc_pos).map fun m => { rcc with APB2ENR := rcc.APB2ENR ||| m }

/-- The configuration code `cfg` that `gpio_peripheral` selects (lines 99-125). -/
def gpio_cfg (gh : GpioHeader) (mode : Nat) (pullup : Int) : Nat :=
  if mode = gh.GPIO_INPUT then
    if pullup ≠ 0 then 0x8 else 0x4
  else if mode = gh.GPIO_OUTPUT then
    0x1
  else if mode = gh.GPIO_OUTPUT ||| gh.GPIO_OPEN_DRAIN then
    0x5
  else if mode = gh.GPIO_ANALOG then
    0x0
  else
    if mode &&& gh.GPIO_OPEN_DRAIN ≠ 0 then 0xd
    else if pullup > 0 then 0x8
    else 0x9

/-- The register update `(reg & ~msk) | (cfg << shift)` of lines 127 and 129. -/
def gpio_set_field (reg msk cfg shift : Nat) : Nat :=
  (reg &&& not32 msk) ||| (cfg <<< shift) % 2 ^ 32

/-- Set the mode and extended function of a pin. -/
def gpio_peripheral (hw : Cmsis) (gh : GpioHeader) (st : GpioState) (gpio mode : Nat)
    (pullup : Int) : Option GpioState :=
  let port := gh.GPIO2PORT gpio
  let regs := st.ports port
  match gpio_clock_enable hw st.rcc (gh.digital_regs port) with
  | none => none
  | some rcc1 =>
    let pos := gpio % 16
    let shift := (pos % 8) * 4
    let msk := (0xf <<< shift) % 2 ^ 32
    let cfg := gpio_cfg gh mode pullup
    let regs1 : GPIO_TypeDef :=
      if pos &&& 0x8 ≠ 0 then { regs with CRH := gpio_set_field regs.CRH msk cfg shift }
      else { regs with CRL := gpio_set_field regs.CRL msk cfg shift }
    let regs2 : GPIO_TypeDef :=
      if pullup > 0 then { regs1 with BSRR := (1 <<< pos) % 2 ^ 32 }
      else if pullup < 0 then { regs1 with BSRR := (1 <<< (pos + 16)) % 2 ^ 32 }
      else regs1
    let mapr :=
      if gpio = gh.GPIO_A13 ∨ gpio = gh.GPIO_A14 then gh.AFIO_MAPR_SWJ_CFG_DISABLE
      else st.AFIO_MAPR
    some { rcc := rcc1, ports := Function.update st.ports port regs2, AFIO_MAPR := mapr }

/-- The 4-bit configuration field number `j` of a `CRL` or `CRH` value: bits
`4 * j .. 4 * j + 3`. -/
def cfgField (reg j : Nat) : Nat := (reg >>> (4 * j)) % 16

/-! ## The configuration that the source file builds -/

/-- Source line 26: the reference frequency when the build does not define
`HSE_VALUE`. -/
def CONFIG_CLOCK_REF_FREQ : Nat := 12000000

/-- Source line 28: the reference selector, defined as 0 without condition, so
that `if (!CONFIG_STM32_CLOCK_REF_INTERNAL)` always takes the crystal branch. -/
def CONFIG_STM32_CLOCK_REF_INTERNAL : Bool := false

/-- Masking with a bit that was just set gives that bit back. -/
theorem or_and_self_right (x m : Nat) : (x ||| m) &&& m = m := by
  apply Nat.eq_of_testBit_eq
  intro i
  simp only [Nat.testBit_and, Nat.testBit_or]
  cases x.testBit i <;> cases m.testBit i <;> rfl

/-- Setting the same bits twice is setting them once. -/
theorem or_or_self_right (x m : Nat) : (x ||| m) ||| m = x ||| m := by
  rw [Nat.or_assoc, Nat.or_self]

/-- A value below `2 ^ j` is below every larger power of two. -/
theorem lt_two_pow_of_le {p j k : Nat} (hp : p < 2 ^ j) (hjk : j ≤ k) : p < 2 ^ k :=
  lt_of_lt_of_le hp (Nat.pow_le_pow_right (by decide) hjk)

/-- Bits below position `k` do not show after a right shift by `k`. -/
theorem shiftRight_or_low (c p k : Nat) (hp : p < 2 ^ k) : (c ||| p) >>> k = c >>> k := by
  apply Nat.eq_of_testBit_eq
  intro i
  simp only [Nat.testBit_shiftRight, Nat.testBit_or]
  rw [Nat.testBit_lt_two_pow (lt_two_pow_of_le hp (Nat.le_add_right k i)), Bool.or_false]

/-- The low `k` bits of an OR are the OR of the low `k` bits. -/
theorem or_mod_two_pow (a b k : Nat) : (a ||| b) % 2 ^ k = a % 2 ^ k ||| b % 2 ^ k := by
  apply Nat.eq_of_testBit_eq
  intro i
  simp only [Nat.testBit_mod_two_pow, Nat.testBit_or]
  cases decide (i < k) <;> simp

/-- OR-ing a value below bit 18 leaves the multiplier field unchanged. -/
theorem pllmulField_or_low (c p : Nat) (hp : p < 2 ^ 18) : pllmulField (c ||| p) = pllmulField c := by
  unfold pllmulField RCC_CFGR_PLLMULL_Pos
  rw [shiftRight_or_low c p _ hp]

/-- OR-ing a value below bit `k` leaves bit `k` unchanged. -/
theorem testBit_or_low (c p k : Nat) (hp : p < 2 ^ k) : (c ||| p).testBit k = c.testBit k := by
  rw [Nat.testBit_or, Nat.testBit_lt_two_pow hp, Bool.or_false]

/-- The local `cfgr` on the crystal path, with the shifts written as products. -/
theorem cfgr_crystal (cfg : Config) (h : cfg.CONFIG_STM32_CLOCK_REF_INTERNAL = false) :
    clock_setup_cfgr cfg = 2 ^ 16 ||| (sub32 (clock_setup_div cfg) 2 * 2 ^ 18) % 2 ^ 32 := by
  simp [clock_setup_cfgr, h, RCC_CFGR_PLLSRC_Pos, RCC_CFGR_PLLMULL_Pos, Nat.shiftLeft_eq]

/-- On the crystal path the multiplier field of `cfgr` is the low four bits of `div - 2`. -/
theorem pllmulField_cfgr_crystal (cfg : Config) (h : cfg.CONFIG_STM32_CLOCK_REF_INTERNAL = false) :
    pllmulField (clock_setup_cfgr cfg) = sub32 (clock_setup_div cfg) 2 % 16 := by
  rw [cfgr_crystal cfg h, Nat.or_comm, pllmulField_or_low _ _ (by decide)]
  unfold pllmulField RCC_CFGR_PLLMULL_Pos
  rw [Nat.shiftRight_eq_div_pow]
  omega

/-- The local `cfgr` has the system-clock switch field (bits 0..1) clear. -/
theorem cfgr_mod_four (cfg : Config) : clock_setup_cfgr cfg % 4 = 0 := by
  have h4 : (4 : Nat) = 2 ^ 2 := rfl
  unfold clock_setup_cfgr
  split
  · rw [h4, or_mod_two_pow]
    simp only [RCC_CFGR_PLLSRC_Pos, RCC_CFGR_PLLMULL_Pos, Nat.shiftLeft_eq]
    have : (sub32 (clock_setup_div cfg) 2 * 2 ^ 18) % 2 ^ 32 % 2 ^ 2 = 0 := by omega
    rw [this]; rfl
  · rw [h4, or_mod_two_pow]
    simp only [RCC_CFGR_PLLSRC_Pos, RCC_CFGR_PLLMULL_Pos, Nat.shiftLeft_eq]
    have : (sub32 (CONFIG_CLOCK_FREQ / 8000000 * 2) 2 * 2 ^ 18) % 2 ^ 32 % 2 ^ 2 = 0 := by omega
    rw [this]; rfl

/-- On the crystal path the PLL source bit of `cfgr` is set. -/
theorem testBit16_cfgr_crystal (cfg : Config) (h : cfg.CONFIG_STM32_CLOCK_REF_INTERNAL = false) :
    (clock_setup_cfgr cfg).testBit 16 = true := by
  rw [cfgr_crystal cfg h, Nat.testBit_or, Nat.testBit_two_pow_self, Bool.true_or]

/-- Induction over the steps of `clock_setup`. -/
theorem reach_induction (hw : Cmsis) (cfg : Config) (env : Env) {P : State → Prop}
    (h0 : P State.init) (hs : ∀ s, P s → P (step hw cfg env s)) :
    ∀ n, P (clock_setup hw cfg env n)
  | 0 => h0
  | n + 1 => hs _ (reach_induction hw cfg env h0 hs n)

/-- The invariant holds at entry. -/
theorem traceInv_init (hw : Cmsis) (cfg : Config) : TraceInv hw cfg State.init := by
  constructor <;> simp [State.init, PC.line]

/-- The line of a read access. -/
@[simp]
theorem Event.line_read (l : Nat) (r : Reg) (v : Nat) : (Event.read l r v).line = l := rfl

/-- The line of a write access. -/
@[simp]
theorem Event.line_write (l : Nat) (r : Reg) (v : Nat) : (Event.write l r v).line = l := rfl

/-- Appending accesses of later lines keeps the trace in line order. -/
theorem sorted_append {tr es : List Event} (k : Nat)
    (h1 : tr.Pairwise (fun a b => a.line ≤ b.line)) (h2 : ∀ e ∈ tr, e.line ≤ k)
    (hes : es.Pairwise (fun a b => a.line ≤ b.line)) (hk : ∀ e ∈ es, k ≤ e.line) :
    (tr ++ es).Pairwise (fun a b => a.line ≤ b.line) :=
  List.pairwise_append.2 ⟨h1, hes, fun a ha b hb => le_trans (h2 a ha) (hk b hb)⟩

/-- A bound on the lines of a trace extends to appended accesses. -/
theorem bound_append {tr es : List Event} (k k' : Nat)
    (h2 : ∀ e ∈ tr, e.line ≤ k) (hkk : k ≤ k') (hes : ∀ e ∈ es, e.line ≤ k') :
    ∀ e ∈ tr ++ es, e.line ≤ k' := by
  intro e he
  rcases List.mem_append.1 he with h | h
  · exact le_trans (h2 e h) hkk
  · exact hes e h

/-- Every statement of `clock_setup` preserves the invariant. -/
theorem traceInv_step (hw : Cmsis) (cfg : Config) (env : Env) (s : State)
    (h : TraceInv hw cfg s) : TraceInv hw cfg (step hw cfg env s) := by
  obtain ⟨h1, h2, h3, h4, h5, h6, h7, h8, h9⟩ := h
  unfold step
  split
  all_goals
    rename_i hpc
    rw [hpc] at h2 h5 h6 h7 h8 h9
    simp only [PC.line] at h2 h5 h6 h7 h8 h9
    norm_num at h5 h6 h7 h8 h9
  · split
    · refine ⟨sorted_append 165 h1 h2 (by simp) (by simp),
        bound_append 165 174 h2 (by decide) (by simp), ?_, ?_, ?_, ?_, ?_, ?_, ?_⟩
      · intro l v hv
        rcases List.mem_append.1 hv with hv | hv
        · exact h3 l v hv
        · simp at hv
      · intro l v hv
        rcases List.mem_append.1 hv with hv | hv
        · exact h4 l v hv
        · simp at hv
      all_goals (intro hh; simp [PC.line] at hh)
    · refine ⟨h1, fun e he => le_trans (h2 e he) (by simp [PC.line]), h3, h4, ?_, ?_, ?_, ?_, ?_⟩
      all_goals (intro hh; simp [PC.line] at hh)
  · refine ⟨sorted_append 174 h1 h2 (by simp) (by simp),
      bound_append 174 175 h2 (by decide) (by simp), ?_, ?_, ?_, ?_, ?_, ?_, ?_⟩
    · intro l v hv
      rcases List.mem_append.1 hv with hv | hv
      · exact h3 l v hv
      · simp at hv
        exact Or.inl hv
    · intro l v hv
      rcases List.mem_append.1 hv with hv | hv
      · exact h4 l v hv
      · simp at hv
    · intro _
      simp
    all_goals (intro hh; simp [PC.line] at hh)
  · refine ⟨sorted_append 175 h1 h2 (by simp) (by simp),
      bound_append 175 178 h2 (by decide) (by simp), ?_, ?_, ?_, ?_, ?_, ?_, ?_⟩
    · intro l v hv
      rcases List.mem_append.1 hv with hv | hv
      · exact h3 l v hv
      · simp at hv
    · intro l v hv
      rcases List.mem_append.1 hv with hv | hv
      · exact h4 l v hv
      · simp at hv
    · intro _
      exact List.mem_append.2 (Or.inl h5)
    · intro _
      exact ⟨_, List.mem_append.2 (Or.inr (List.mem_cons_of_mem _ (List.mem_singleton.2 rfl)))⟩
    all_goals (intro hh; simp [PC.line] at hh)
  · refine ⟨sorted_append 178 h1 h2 (by simp) (by simp),
      bound_append 178 181 h2 (by decide) (by simp), ?_, ?_, ?_, ?_, ?_, ?_, ?_⟩
    · intro l v hv
      rcases List.mem_append.1 hv with hv | hv
      · exact h3 l v hv
      · simp at hv
    · intro l v hv
      rcases List.mem_append.1 hv with hv | hv
      · exact h4 l v hv
      · simp at hv
        exact hv
    · intro _
      exact List.mem_append.2 (Or.inl h5)
    · intro _
      obtain ⟨w, hw6⟩ := h6
      exact ⟨w, List.mem_append.2 (Or.inl hw6)⟩
    · intro _
      simp
    all_goals (intro hh; simp [PC.line] at hh)
  · have hb : ∀ p : PC, p = PC.waitLock ∨ p = PC.switchPll → 181 ≤ p.line := by
      rintro p (rfl | rfl) <;> simp [PC.line]
    have hp := ite_eq_or_eq (env.RCC_CR s.crReads % 2 ^ 32 &&& hw.RCC_CR_PLLRDY = 0)
      PC.waitLock PC.switchPll
    refine ⟨sorted_append 181 h1 h2 (by simp) (by simp),
      bound_append 181 _ h2 (hb _ hp) (by simpa using hb _ hp), ?_, ?_, ?_, ?_, ?_, ?_, ?_⟩
    · intro l v hv
      rcases List.mem_append.1 hv with hv | hv
      · exact h3 l v hv
      · simp at hv
    · intro l v hv
      rcases List.mem_append.1 hv with hv | hv
      · exact h4 l v hv
      · simp at hv
    · intro _
      exact List.mem_append.2 (Or.inl h5)
    · intro _
      obtain ⟨w, hw6⟩ := h6
      exact ⟨w, List.mem_append.2 (Or.inl hw6)⟩
    · intro _
      exact List.mem_append.2 (Or.inl h7)
    · intro hh
      by_cases hc : env.RCC_CR s.crReads % 2 ^ 32 &&& hw.RCC_CR_PLLRDY = 0
      · change 185 ≤ (if _ then PC.waitLock else PC.switchPll).line at hh
        rw [if_pos hc] at hh
        simp [PC.line] at hh
      · exact ⟨_, List.mem_append.2 (Or.inr (List.mem_singleton.2 rfl)), hc⟩
    · intro hh
      change 186 ≤ (if _ then PC.waitLock else PC.switchPll).line at hh
      rcases hp with hp | hp <;> rw [hp] at hh <;> simp [PC.line] at hh
  · refine ⟨sorted_append 185 h1 h2 (by simp) (by simp),
      bound_append 185 186 h2 (by decide) (by simp), ?_, ?_, ?_, ?_, ?_, ?_, ?_⟩
    · intro l v hv
      rcases List.mem_append.1 hv with hv | hv
      · exact h3 l v hv
      · simp at hv
        exact Or.inr hv
    · intro l v hv
      rcases List.mem_append.1 hv with hv | hv
      · exact h4 l v hv
      · simp at hv
    · intro _
      exact List.mem_append.2 (Or.inl h5)
    · intro _
      obtain ⟨w, hw6⟩ := h6
      exact ⟨w, List.mem_append.2 (Or.inl hw6)⟩
    · intro _
      exact List.mem_append.2 (Or.inl h7)
    · intro _
      obtain ⟨w, hw8, hw8'⟩ := h8
      exact ⟨w, List.mem_append.2 (Or.inl hw8), hw8'⟩
    · intro _
      simp
  · have hb : ∀ p : PC, p = PC.waitSws ∨ p = PC.done → 186 ≤ p.line := by
      rintro p (rfl | rfl) <;> simp [PC.line]
    have hp := ite_eq_or_eq (env.RCC_CFGR s.cfgrReads % 2 ^ 32 &&& RCC_CFGR_SWS_Msk ≠ hw.RCC_CFGR_SWS_PLL)
      PC.waitSws PC.done
    refine ⟨sorted_append 186 h1 h2 (by simp) (by simp),
      bound_append 186 _ h2 (hb _ hp) (by simpa using hb _ hp), ?_, ?_, ?_, ?_, ?_, ?_, ?_⟩
    · intro l v hv
      rcases List.mem_append.1 hv with hv | hv
      · exact h3 l v hv
      · simp at hv
    · intro l v hv
      rcases List.mem_append.1 hv with hv | hv
      · exact h4 l v hv
      · simp at hv
    · intro _
      exact List.mem_append.2 (Or.inl h5)
    · intro _
      obtain ⟨w, hw6⟩ := h6
      exact ⟨w, List.mem_append.2 (Or.inl hw6)⟩
    · intro _
      exact List.mem_append.2 (Or.inl h7)
    · intro _
      obtain ⟨w, hw8, hw8'⟩ := h8
      exact ⟨w, List.mem_append.2 (Or.inl hw8), hw8'⟩
    · intro _
      exact List.mem_append.2 (Or.inl h9)
  · refine ⟨h1, ?_, h3, h4, ?_, ?_, ?_, ?_, ?_⟩
    · rw [hpc]; exact h2
    · exact fun _ => h5
    · exact fun _ => h6
    · exact fun _ => h7
    · exact fun _ => h8
    · exact fun _ => h9

/-- The invariant holds after any number of steps. -/
theorem traceInv_reach (hw : Cmsis) (cfg : Config) (env : Env) (n : Nat) :
    TraceInv hw cfg (clock_setup hw cfg env n) :=
  reach_induction hw cfg env (traceInv_init hw cfg) (traceInv_step hw cfg env) n

/-- In a trace in line order, an access of a smaller line than `b` lies before `b`. -/
theorem mem_earlier_of_sorted {tr earlier rest : List Event} {a b : Event}
    (hs : tr.Pairwise (fun a b => a.line ≤ b.line)) (h : tr = earlier ++ b :: rest)
    (ha : a ∈ tr) (hlt : a.line < b.line) : a ∈ earlier := by
  subst h
  rcases List.mem_append.1 ha with h | h
  · exact h
  · exfalso
    rcases List.mem_cons.1 h with h | h
    · subst h; exact lt_irrefl _ hlt
    · have h2 := (List.pairwise_append.1 hs).2.1
      have := (List.pairwise_cons.1 h2).1 a h
      omega

/-- The access at a split point belongs to the trace. -/
theorem mem_of_split {tr earlier rest : List Event} {b : Event}
    (h : tr = earlier ++ b :: rest) : b ∈ tr := by
  subst h; simp

/-- The accesses before a split point belong to the trace. -/
theorem mem_of_mem_earlier {tr earlier rest : List Event} {a b : Event}
    (h : tr = earlier ++ b :: rest) (ha : a ∈ earlier) : a ∈ tr := by
  subst h; exact List.mem_append.2 (Or.inl ha)

/-- In a trace in line order, the accesses before `b` have lines at most that of `b`. -/
theorem line_le_of_mem_earlier {tr earlier rest : List Event} {a b : Event}
    (hs : tr.Pairwise (fun a b => a.line ≤ b.line)) (h : tr = earlier ++ b :: rest)
    (ha : a ∈ earlier) : a.line ≤ b.line := by
  subst h
  exact (List.pairwise_append.1 hs).2.2 a ha b (List.mem_cons_self _ _)

/-- After four steps the control point is the lock-wait loop. -/
theorem clock_setup_four (hw : Cmsis) (cfg : Config) (env : Env) :
    (clock_setup hw cfg env 4).pc = PC.waitLock ∧
    (clock_setup hw cfg env 4).crReads = crReadsBeforePoll cfg := by
  cases hc : cfg.CONFIG_STM32_CLOCK_REF_INTERNAL <;>
    simp [clock_setup, step, State.init, crReadsBeforePoll, hc]

/-- While the polls of line 181 lack the lock flag, the control point stays in the loop. -/
theorem clock_setup_polls (hw : Cmsis) (cfg : Config) (env : Env) (n : Nat)
    (h : ∀ k, k < n → env.RCC_CR (crReadsBeforePoll cfg + k) % 2 ^ 32 &&& hw.RCC_CR_PLLRDY = 0) :
    (clock_setup hw cfg env (4 + n)).pc = PC.waitLock ∧
    (clock_setup hw cfg env (4 + n)).crReads = crReadsBeforePoll cfg + n := by
  induction n with
  | zero => exact clock_setup_four hw cfg env
  | succ n ih =>
    obtain ⟨h1, h2⟩ := ih (fun k hk => h k (Nat.lt_succ_of_lt hk))
    have hn := h n (Nat.lt_succ_self n)
    show (step hw cfg env (clock_setup hw cfg env (4 + n))).pc = PC.waitLock ∧
      (step hw cfg env (clock_setup hw cfg env (4 + n))).crReads = crReadsBeforePoll cfg + (n + 1)
    unfold step
    rw [h1]
    simp only [h2, hn, if_true, true_and]
    omega

/-- The first poll that shows the lock flag leaves the loop, and the next step is the switch write. -/
theorem clock_setup_locks (hw : Cmsis) (cfg : Config) (env : Env) (n : Nat)
    (h : ∀ k, k < n → env.RCC_CR (crReadsBeforePoll cfg + k) % 2 ^ 32 &&& hw.RCC_CR_PLLRDY = 0)
    (hl : env.RCC_CR (crReadsBeforePoll cfg + n) % 2 ^ 32 &&& hw.RCC_CR_PLLRDY ≠ 0) :
    (clock_setup hw cfg env (4 + n + 1)).pc = PC.switchPll ∧
    Event.write 185 Reg.RCC_CFGR (cfgr_switch hw cfg) ∈ (clock_setup hw cfg env (4 + n + 2)).trace := by
  obtain ⟨h1, h2⟩ := clock_setup_polls hw cfg env n h
  have h3 : (clock_setup hw cfg env (4 + n + 1)).pc = PC.switchPll := by
    show (step hw cfg env (clock_setup hw cfg env (4 + n))).pc = PC.switchPll
    unfold step
    rw [h1]
    simp only [h2, hl, if_false]
  refine ⟨h3, ?_⟩
  show _ ∈ (step hw cfg env (clock_setup hw cfg env (4 + n + 1))).trace
  unfold step
  rw [h3]
  simp

/-- Every value that any execution writes to `RCC->CFGR` carries the PLL
source bit and the multiplier field of the local variable `cfgr`. -/
theorem cfgr_write_fields (hw : Cmsis) (hl : hw.FieldLayout) (cfg : Config) (env : Env)
    (n l v : Nat) (h : Event.write l Reg.RCC_CFGR v ∈ (clock_setup hw cfg env n).trace) :
    pllmulField v = pllmulField (clock_setup_cfgr cfg) ∧
    v.testBit 16 = (clock_setup_cfgr cfg).testBit 16 := by
  obtain ⟨⟨p1, -⟩, ⟨p2, -⟩, ⟨p3, -⟩, p4, -⟩ := hl
  rcases (traceInv_reach hw cfg env n).cfgrWrites l v h with ⟨-, rfl⟩ | ⟨-, rfl⟩
  · unfold cfgr_prescaled
    constructor
    · rw [pllmulField_or_low _ _ (lt_two_pow_of_le p3 (by decide)),
        pllmulField_or_low _ _ (lt_two_pow_of_le p2 (by decide)),
        pllmulField_or_low _ _ (lt_two_pow_of_le p1 (by decide))]
    · rw [testBit_or_low _ _ 16 p3, testBit_or_low _ _ 16 p2, testBit_or_low _ _ 16 p1]
  · unfold cfgr_switch
    exact ⟨pllmulField_or_low _ _ (lt_two_pow_of_le p4 (by decide)), testBit_or_low _ _ 16 p4⟩

/-- The second step of every execution is the write of line 174. -/
theorem clock_setup_two (hw : Cmsis) (cfg : Config) (env : Env) :
    Event.write 174 Reg.RCC_CFGR (cfgr_prescaled hw cfg) ∈ (clock_setup hw cfg env 2).trace := by
  cases hc : cfg.CONFIG_STM32_CLOCK_REF_INTERNAL <;>
    simp [clock_setup, step, State.init, hc]

/-- The control point never moves to an earlier source line. -/
theorem pc_line_step (hw : Cmsis) (cfg : Config) (env : Env) (s : State) :
    s.pc.line ≤ (step hw cfg env s).pc.line := by
  unfold step
  split
  · rename_i hpc
    rw [hpc]
    split <;> simp [PC.line]
  · rename_i hpc; rw [hpc]; simp [PC.line]
  · rename_i hpc; rw [hpc]; simp [PC.line]
  · rename_i hpc; rw [hpc]; simp [PC.line]
  · rename_i hpc
    rw [hpc]
    rcases ite_eq_or_eq (env.RCC_CR s.crReads % 2 ^ 32 &&& hw.RCC_CR_PLLRDY = 0)
      PC.waitLock PC.switchPll with h | h
    · change PC.waitLock.line ≤ (if _ then PC.waitLock else PC.switchPll).line
      rw [h]
    · change PC.waitLock.line ≤ (if _ then PC.waitLock else PC.switchPll).line
      rw [h]; simp [PC.line]
  · rename_i hpc; rw [hpc]; simp [PC.line]
  · rename_i hpc
    rw [hpc]
    rcases ite_eq_or_eq (env.RCC_CFGR s.cfgrReads % 2 ^ 32 &&& RCC_CFGR_SWS_Msk ≠ hw.RCC_CFGR_SWS_PLL)
      PC.waitSws PC.done with h | h
    · change PC.waitSws.line ≤ (if _ then PC.waitSws else PC.done).line
      rw [h]
    · change PC.waitSws.line ≤ (if _ then PC.waitSws else PC.done).line
      rw [h]; simp [PC.line]
  · exact le_refl _

/-- From the fourth step on, the control point is at or past the lock-wait loop. -/
theorem pc_line_after_four (hw : Cmsis) (cfg : Config) (env : Env) (n : Nat) :
    181 ≤ (clock_setup hw cfg env (4 + n)).pc.line := by
  induction n with
  | zero =>
    show 181 ≤ (clock_setup hw cfg env 4).pc.line
    rw [(clock_setup_four hw cfg env).1]
    simp [PC.line]
  | succ n ih => exact le_trans ih (pc_line_step hw cfg env _)

/-- The value written at line 174 leaves the system-clock switch field clear. -/
theorem cfgr_prescaled_mod_four (hw : Cmsis) (hl : hw.FieldLayout) (cfg : Config) :
    cfgr_prescaled hw cfg % 4 = 0 := by
  obtain ⟨⟨-, p1⟩, ⟨-, p2⟩, ⟨-, p3⟩, -, -⟩ := hl
  have h4 : (4 : Nat) = 2 ^ 2 := rfl
  unfold cfgr_prescaled
  rw [h4] at p1 p2 p3 ⊢
  rw [or_mod_two_pow, or_mod_two_pow, or_mod_two_pow, p1, p2, p3, ← h4, cfgr_mod_four]
  rfl

/-- The value written to `FLASH->ACR` has latency 2 and the prefetch bit. -/
theorem flash_acr_value_fields (hw : Cmsis) (hl : hw.FieldLayout) :
    flash_acr_value hw % 8 = 2 ∧
    flash_acr_value hw &&& hw.FLASH_ACR_PRFTBE = hw.FLASH_ACR_PRFTBE := by
  obtain ⟨-, -, -, -, p5⟩ := hl
  have h8 : (8 : Nat) = 2 ^ 3 := rfl
  unfold flash_acr_value
  refine ⟨?_, or_and_self_right _ _⟩
  rw [h8] at p5 ⊢
  rw [or_mod_two_pow, p5]
  rfl

/-- The iteration count only grows in the busy-wait loop of `delay`. -/
theorem delay_wait_ge (ms : Nat) (now : Nat → Nat) (fuel iters k : Nat)
    (h : delay_wait ms now fuel iters = some k) : iters ≤ k := by
  induction fuel generalizing iters with
  | zero => simp [delay_wait] at h
  | succ fuel ih =>
    unfold delay_wait at h
    split at h
    · exact le_trans (Nat.le_succ _) (ih _ h)
    · exact le_of_eq (Option.some.inj h)

/-- When the millisecond value does not wrap between the first two reads, `delay 0`
leaves the loop at the initial check. -/
theorem delay_zero_without_millis_wrap (now : Nat → Nat) (fuel : Nat)
    (h01 : now 0 ≤ now 1) (hw : now 1 / 1000 < 2 ^ 32) :
    delay 0 now (fuel + 1) = some 0 := by
  have h0 : now 0 / 1000 ≤ now 1 / 1000 := Nat.div_le_div_right h01
  have hnot : ¬ millis (now (0 + 1)) < (0 + millis (now 0)) % 2 ^ 32 := by
    unfold millis
    rw [Nat.zero_add, Nat.zero_add, Nat.mod_mod, Nat.mod_eq_of_lt hw,
      Nat.mod_eq_of_lt (lt_of_le_of_lt h0 hw)]
    exact Nat.not_lt.2 h0
  unfold delay delay_wait
  rw [if_neg hnot]

/-- The handler changes nothing but `us_counter`. -/
theorem SysTick_Handler_iterate_frame (n : Nat) (t : TimerRegs) :
    (SysTick_Handler^[n] t).CoreDebug_DEMCR = t.CoreDebug_DEMCR ∧
    (SysTick_Handler^[n] t).DWT_CTRL = t.DWT_CTRL ∧
    (SysTick_Handler^[n] t).DWT_CYCCNT = t.DWT_CYCCNT ∧
    (SysTick_Handler^[n] t).SysTick_LOAD = t.SysTick_LOAD ∧
    (SysTick_Handler^[n] t).SysTick_VAL = t.SysTick_VAL ∧
    (SysTick_Handler^[n] t).SysTick_CTRL = t.SysTick_CTRL ∧
    (SysTick_Handler^[n] t).SysTick_priority = t.SysTick_priority := by
  induction n generalizing t with
  | zero => simp
  | succ n ih =>
    rw [Function.iterate_succ_apply]
    exact ih (SysTick_Handler t)

/-- Without overflow, `n` invocations of the handler add `n` to `us_counter`. -/
theorem SysTick_Handler_iterate_counter (n : Nat) (t : TimerRegs)
    (h : t.us_counter + n < 2 ^ 64) :
    (SysTick_Handler^[n] t).us_counter = t.us_counter + n := by
  induction n generalizing t with
  | zero => simp
  | succ n ih =>
    rw [Function.iterate_succ_apply]
    have h1 : (SysTick_Handler t).us_counter = t.us_counter + 1 := by
      show (t.us_counter + 1) % 2 ^ 64 = t.us_counter + 1
      exact Nat.mod_eq_of_lt (by omega)
    rw [ih (SysTick_Handler t) (by rw [h1]; omega), h1]
    omega

/-- The 32-bit difference only depends on the operands modulo `2 ^ 32`. -/
theorem sub32_mod (a b : Nat) : sub32 (a % 2 ^ 32) (b % 2 ^ 32) = sub32 a b := by
  unfold sub32
  rw [Nat.mod_mod, Nat.mod_mod]

/-- A reading less than `d` cycles after `s` is before the deadline `s + d`. -/
theorem timer_is_before_deadline (s t d : Nat)
    (hd : d < 2 ^ 31) (h : sub32 t s < d) : timer_is_before t ((s + d) % 2 ^ 32) = 1 := by
  unfold timer_is_before toInt32
  unfold sub32 at h ⊢
  norm_num at hd h ⊢
  split_ifs <;> omega

/-- A reading at least `d` and less than `2 ^ 31` cycles after `s` is not before
the deadline `s + d`. -/
theorem timer_not_before_deadline (s t d : Nat) (hs : s < 2 ^ 32)
    (h : d ≤ sub32 t s) (h31 : sub32 t s < 2 ^ 31) :
    timer_is_before t ((s + d) % 2 ^ 32) = 0 := by
  unfold timer_is_before toInt32
  unfold sub32 at h h31 ⊢
  norm_num at hs h h31 ⊢
  split_ifs <;> omega

/-- The busy-wait loop of `delayMicroseconds` exits at the first reading for
which `timer_is_before` is false. -/
theorem delayMicroseconds_wait_exit (end_time : Nat) (cyc : Nat → Nat) (n : Nat)
    (h1 : ∀ k, k < n → timer_is_before (cyc (k + 1) % 2 ^ 32) end_time ≠ 0)
    (h2 : timer_is_before (cyc (n + 1) % 2 ^ 32) end_time = 0) :
    ∀ fuel iters, iters ≤ n → n - iters < fuel →
      delayMicroseconds_wait end_time cyc fuel iters = some n := by
  intro fuel
  induction fuel with
  | zero => intro iters _ hf; omega
  | succ fuel ih =>
    intro iters hle hf
    unfold delayMicroseconds_wait
    by_cases hi : iters = n
    · subst hi
      rw [if_neg (by simpa using h2)]
    · have hlt : iters < n := lt_of_le_of_ne hle hi
      rw [if_pos (h1 iters hlt)]
      exact ih (iters + 1) hlt (by omega)

/-- A write to `r` at the end of a trace is its last write to `r`. -/
theorem lastWrite_append_write (r : Reg) (tr : List Event) (l v : Nat) :
    lastWrite r (tr ++ [Event.write l r v]) = some v := by
  induction tr with
  | nil => simp [lastWrite]
  | cons e es ih => simp [lastWrite, ih]

/-- A read at the end of a trace does not change the last write. -/
theorem lastWrite_append_read (r : Reg) (tr : List Event) (l : Nat) (r' : Reg) (v : Nat) :
    lastWrite r (tr ++ [Event.read l r' v]) = lastWrite r tr := by
  induction tr with
  | nil => simp [lastWrite]
  | cons e es ih => simp [lastWrite, ih]

/-- Once the switch write is made, the last value written to `RCC->CFGR` is
`cfgr | RCC_CFGR_SW_PLL`, up to the end of `clock_setup`. -/
theorem lastWrite_cfgr_after_switch (hw : Cmsis) (cfg : Config) (env : Env) (n : Nat) :
    186 ≤ (clock_setup hw cfg env n).pc.line →
    lastWrite Reg.RCC_CFGR (clock_setup hw cfg env n).trace = some (cfgr_switch hw cfg) := by
  refine @reach_induction hw cfg env
    (fun s => 186 ≤ s.pc.line → lastWrite Reg.RCC_CFGR s.trace = some (cfgr_switch hw cfg))
    ?_ ?_ n
  · intro h
    simp [State.init, PC.line] at h
  · intro s ih
    unfold step
    split
    · rename_i hpc
      split <;> (intro h; simp [PC.line] at h)
    · intro h; simp [PC.line] at h
    · intro h; simp [PC.line] at h
    · intro h; simp [PC.line] at h
    · rename_i hpc
      intro h
      exfalso
      change 186 ≤ (if _ then PC.waitLock else PC.switchPll).line at h
      rcases ite_eq_or_eq (env.RCC_CR s.crReads % 2 ^ 32 &&& hw.RCC_CR_PLLRDY = 0)
        PC.waitLock PC.switchPll with h' | h' <;> rw [h'] at h <;> simp [PC.line] at h
    · intro _
      exact lastWrite_append_write _ _ _ _
    · rename_i hpc
      intro _
      rw [hpc] at ih
      show lastWrite Reg.RCC_CFGR (s.trace ++ [Event.read 186 Reg.RCC_CFGR _]) = _
      rw [lastWrite_append_read]
      exact ih (by simp [PC.line])
    · exact ih

/-- Setting bit `p` changes exactly bit `p`. -/
theorem testBit_or_two_pow (x p i : Nat) :
    (x ||| 2 ^ p).testBit i = (x.testBit i || decide (i = p)) := by
  rw [Nat.testBit_or, Nat.testBit_two_pow]
  congr 1
  exact decide_eq_decide.2 eq_comm

/-- The masked value `x & (1 << p)`, returned as an `int`, is non-zero exactly
when bit `p` of `x` is set, for a bit position below 32. -/
theorem toInt32_and_two_pow_ne_zero (x p : Nat) (hp : p < 32) :
    toInt32 (x &&& 2 ^ p) ≠ 0 ↔ x.testBit p = true := by
  have h1 : 0 < 2 ^ p := Nat.pow_pos (by decide)
  have h2 : 2 ^ p < 2 ^ 32 := Nat.pow_lt_pow_right (by decide) hp
  rw [Nat.and_two_pow]
  cases hx : x.testBit p
  · simp [toInt32]
  · simp only [Bool.toNat_true, Nat.one_mul, iff_true]
    unfold toInt32
    rw [Nat.mod_eq_of_lt h2]
    split <;> omega

/-- For 32-bit `a` at or above `b`, the wrapping difference is the difference. -/
theorem sub32_of_le (a b : Nat) (ha : a < 2 ^ 32) (hba : b ≤ a) : sub32 a b = a - b := by
  unfold sub32
  norm_num at ha ⊢
  omega

/-- A value below 16 has no bit at position 4 or above. -/
theorem testBit_lt_sixteen (c j : Nat) (hc : c < 16) (hj : 4 ≤ j) : c.testBit j = false :=
  Nat.testBit_lt_two_pow (lt_of_lt_of_le hc (Nat.pow_le_pow_right (by decide) hj : 2 ^ 4 ≤ 2 ^ j))

/-- Bit `i` of the updated register: inside the field it is the bit of `cfg`,
outside it is the old bit. -/
theorem testBit_gpio_set_field (reg cfg k i : Nat) (hc : cfg < 16) (hi : i < 32) :
    (gpio_set_field reg ((0xf <<< (k * 4)) % 2 ^ 32) cfg (k * 4)).testBit i =
      if k * 4 ≤ i ∧ i < k * 4 + 4 then cfg.testBit (i - k * 4) else reg.testBit i := by
  have h15 : (0xf : Nat) = 2 ^ 4 - 1 := rfl
  unfold gpio_set_field not32
  rw [Nat.mod_mod, h15]
  simp only [Nat.testBit_or, Nat.testBit_and, Nat.testBit_xor, Nat.testBit_mod_two_pow,
    Nat.testBit_two_pow_sub_one, Nat.testBit_shiftLeft, hi, decide_True, Bool.true_and]
  by_cases h1 : k * 4 ≤ i
  · by_cases h2 : i < k * 4 + 4
    · have h3 : i - k * 4 < 4 := by omega
      simp [h1, h2, h3]
    · have h3 : ¬ i - k * 4 < 4 := by omega
      have h4 := testBit_lt_sixteen cfg (i - k * 4) hc (by omega)
      simp [h1, h2, h3, h4]
  · have h1' : ¬ i ≥ k * 4 := h1
    simp [h1, h1']

/-- Two registers that agree on the four bits of field `j` have the same field `j`. -/
theorem cfgField_congr (x y j : Nat)
    (h : ∀ b, b < 4 → x.testBit (4 * j + b) = y.testBit (4 * j + b)) :
    cfgField x j = cfgField y j := by
  have h16 : (16 : Nat) = 2 ^ 4 := rfl
  unfold cfgField
  rw [h16]
  apply Nat.eq_of_testBit_eq
  intro b
  rw [Nat.testBit_mod_two_pow, Nat.testBit_mod_two_pow, Nat.testBit_shiftRight,
    Nat.testBit_shiftRight]
  by_cases hb : b < 4
  · rw [h b hb]
  · simp [hb]

/-- A register whose field `j` has the bits of `c < 16` has field `j` equal to `c`. -/
theorem cfgField_eq (x c j : Nat) (hc : c < 16)
    (h : ∀ b, b < 4 → x.testBit (4 * j + b) = c.testBit b) : cfgField x j = c := by
  have h16 : (16 : Nat) = 2 ^ 4 := rfl
  unfold cfgField
  rw [h16]
  apply Nat.eq_of_testBit_eq
  intro b
  rw [Nat.testBit_mod_two_pow, Nat.testBit_shiftRight]
  by_cases hb : b < 4
  · simp [hb, h b hb]
  · simp [hb, testBit_lt_sixteen c b hc (by omega)]

/-- The updated register has the new code in field `k`. -/
theorem cfgField_gpio_set_field_same (reg cfg k : Nat) (hk : k < 8) (hc : cfg < 16) :
    cfgField (gpio_set_field reg ((0xf <<< (k * 4)) % 2 ^ 32) cfg (k * 4)) k = cfg := by
  apply cfgField_eq _ _ _ hc
  intro b hb
  rw [testBit_gpio_set_field reg cfg k _ hc (by omega), if_pos (by omega)]
  congr 1
  omega

/-- The updated register keeps every field other than `k`. -/
theorem cfgField_gpio_set_field_other (reg cfg k j : Nat) (hj : j < 8) (hjk : j ≠ k)
    (hc : cfg < 16) :
    cfgField (gpio_set_field reg ((0xf <<< (k * 4)) % 2 ^ 32) cfg (k * 4)) j
      = cfgField reg j := by
  apply cfgField_congr
  intro b hb
  rw [testBit_gpio_set_field reg cfg k _ hc (by omega), if_neg (by omega)]

/-- Every configuration code that `gpio_peripheral` selects fits four bits. -/
theorem gpio_cfg_le (gh : GpioHeader) (mode : Nat) (pullup : Int) :
    gpio_cfg gh mode pullup ≤ 0xF := by
  unfold gpio_cfg
  split_ifs <;> decide

/-- For a pin position below 16, the test `pos & 0x8` selects the positions 8..15. -/
theorem and_eight_ne_zero (pos : Nat) (h : pos < 16) : pos &&& 0x8 ≠ 0 ↔ 8 ≤ pos := by
  have key : ∀ p : Fin 16, (p.val &&& 0x8 ≠ 0 ↔ 8 ≤ p.val) := by decide
  exact key ⟨pos, h⟩

/-- C1: for every 32-bit time `a` and distance `0 < d < 2^31`,
`timer_is_before a (a + d mod 2^32)` is true (1) and the reverse comparison is
false (0), also when the counter wraps in between; in particular
`timer_is_before 0xFFFFFFF0 0x00000010` is true. -/
theorem timer_is_before_wraparound (a d : Nat) (ha : a < 2 ^ 32) (hd0 : 0 < d)
    (hd : d < 2 ^ 31) :
    timer_is_before a ((a + d) % 2 ^ 32) = 1 ∧
    timer_is_before ((a + d) % 2 ^ 32) a = 0 ∧
    timer_is_before 0xFFFFFFF0 0x00000010 = 1 := by
  refine ⟨?_, ?_, by decide⟩
  · unfold timer_is_before toInt32 sub32
    norm_num at ha hd ⊢
    split_ifs <;> omega
  · unfold timer_is_before toInt32 sub32
    norm_num at ha hd ⊢
    split_ifs <;> omega

/-- Witness for C1 at `a = 0xFFFFFFF0`, `d = 0x20`, where `a + d` wraps to `0x10`. -/
theorem timer_is_before_wraparound_witness :
    (0xFFFFFFF0 < 2 ^ 32 ∧ 0 < 0x20 ∧ 0x20 < 2 ^ 31) ∧
    (timer_is_before 0xFFFFFFF0 ((0xFFFFFFF0 + 0x20) % 2 ^ 32) = 1 ∧
     timer_is_before ((0xFFFFFFF0 + 0x20) % 2 ^ 32) 0xFFFFFFF0 = 0 ∧
     timer_is_before 0xFFFFFFF0 0x00000010 = 1) :=
  ⟨by decide, timer_is_before_wraparound 0xFFFFFFF0 0x20 (by decide) (by decide) (by decide)⟩

/-- C2, counterexample: the round trip ticks -> microseconds -> ticks loses
the tick value `1`: `us_from_timer 1 = 0` and `timer_from_us 0 = 0`. -/
theorem timer_round_trip_fails_at_one :
    ¬ (∀ x : Nat, x < 2 ^ 32 → timer_from_us (us_from_timer x) = x) := by
  intro h
  exact absurd (h 1 (by decide)) (by decide)

/-- C2, amended: for every 32-bit tick value `x`, the round trip
`timer_from_us (us_from_timer x)` gives `x - x mod 72`, the largest multiple of
72 not above `x`; it returns `x` exactly when `x` is a multiple of 72. -/
theorem timer_round_trip_multiple_of_72 (x : Nat) (hx : x < 2 ^ 32) :
    timer_from_us (us_from_timer x) = x - x % 72 ∧
    (timer_from_us (us_from_timer x) = x ↔ x % 72 = 0) := by
  unfold timer_from_us us_from_timer CONFIG_CLOCK_FREQ
  norm_num at hx ⊢
  omega

/-- Witness for the amended C2 at `x = 144`. -/
theorem timer_round_trip_multiple_of_72_witness :
    144 < 2 ^ 32 ∧ timer_from_us (us_from_timer 144) = 144 - 144 % 72 ∧
    (timer_from_us (us_from_timer 144) = 144 ↔ 144 % 72 = 0) :=
  ⟨by decide, timer_round_trip_multiple_of_72 144 (by decide)⟩

/-- C6: for every base address, `get_pclock_frequency` returns
`CONFIG_CLOCK_FREQ / 2 = 36000000`, half of the 72000000 core frequency. -/
theorem get_pclock_frequency_half_core (periph_base : Nat) :
    get_pclock_frequency periph_base = CONFIG_CLOCK_FREQ / 2 ∧
    get_pclock_frequency periph_base = 36000000 ∧
    CONFIG_CLOCK_FREQ = 72000000 :=
  ⟨rfl, rfl, rfl⟩

/-- C10: for every 64-bit counter value `c`, `millis` returns the truncated
quotient `c / 1000` reduced to 32 bits, where the quotient is the `m` with
`1000 * m <= c < 1000 * (m + 1)` (never rounded up: 1999 gives 1), and
`micros` returns `c` reduced to 32 bits. -/
theorem millis_truncates_micros_direct (c : Nat) (hc : c < 2 ^ 64) :
    (millis c = (c / 1000) % 2 ^ 32 ∧
      ∃ m, 1000 * m ≤ c ∧ c < 1000 * (m + 1) ∧ millis c = m % 2 ^ 32 ∧ m < 2 ^ 64) ∧
    millis 1999 = 1 ∧
    (micros c = c % 2 ^ 32 ∧ micros c < 2 ^ 32 ∧ ∃ h, c = micros c + 2 ^ 32 * h) := by
  refine ⟨⟨rfl, c / 1000, ?_, ?_, rfl, ?_⟩, by decide, rfl, ?_, c / 2 ^ 32, ?_⟩
  · omega
  · omega
  · norm_num at hc ⊢; omega
  · unfold micros; norm_num; omega
  · unfold micros; norm_num; omega

/-- Witness for C10 at `c = 4294967296999`, where the millisecond value wraps. -/
theorem millis_truncates_micros_direct_witness :
    4294967296999 < 2 ^ 64 ∧ millis 4294967296999 = 0 ∧ micros 4294967296999 = 999 :=
  ⟨by decide,
   (millis_truncates_micros_direct 4294967296999 (by decide)).1.1.trans (by decide),
   (millis_truncates_micros_direct 4294967296999 (by decide)).2.2.1.trans (by decide)⟩

/-- C5: for every state of the three enable registers and every base address
whose bit position `(base - domain_base) / 0x400` is below 32, `enable_pclock`
succeeds, a second call leaves exactly the state of the first, and in that
state `is_enabled_pclock` returns a non-zero value. -/
theorem enable_pclock_idempotent (hw : Cmsis) (rcc : RccEnable) (periph_base : Nat)
    (hpos : pclock_pos hw periph_base < 32) :
    ∃ rcc', enable_pclock hw rcc periph_base = some rcc' ∧
      enable_pclock hw rcc' periph_base = some rcc' ∧
      ∃ r, is_enabled_pclock hw rcc' periph_base = some r ∧ r ≠ 0 := by
  have hne : ∀ x pos : Nat, pos < 32 → toInt32 ((x ||| 2 ^ pos) &&& 2 ^ pos) ≠ 0 := by
    intro x pos hp
    rw [or_and_self_right]
    have h1 : 0 < 2 ^ pos := Nat.pow_pos (by decide)
    have h2 : 2 ^ pos < 2 ^ 32 := Nat.pow_lt_pow_right (by decide) hp
    unfold toInt32
    rw [Nat.mod_eq_of_lt h2]
    split <;> omega
  unfold pclock_pos at hpos
  unfold enable_pclock is_enabled_pclock shl1
  by_cases h1 : periph_base < hw.APB2PERIPH_BASE
  · simp only [h1, if_true] at hpos ⊢
    simp only [hpos, if_true, Option.map_some']
    exact ⟨_, rfl, by simp [or_or_self_right], _, rfl, hne _ _ hpos⟩
  · by_cases h2 : periph_base < hw.AHBPERIPH_BASE
    · simp only [h1, h2, if_true, if_false] at hpos ⊢
      simp only [hpos, if_true, Option.map_some']
      exact ⟨_, rfl, by simp [or_or_self_right], _, rfl, hne _ _ hpos⟩
    · simp only [h1, h2, if_false] at hpos ⊢
      simp only [hpos, if_true, Option.map_some']
      exact ⟨_, rfl, by simp [or_or_self_right], _, rfl, hne _ _ hpos⟩

/-- Witness for C5: `AFIO_BASE = 0x40010000` on the device header values, from
the all-zero register state. -/
theorem enable_pclock_idempotent_witness :
    pclock_pos stm32f103xb 0x40010000 < 32 ∧
    ∃ rcc', enable_pclock stm32f103xb ⟨0, 0, 0⟩ 0x40010000 = some rcc' ∧
      enable_pclock stm32f103xb rcc' 0x40010000 = some rcc' ∧
      ∃ r, is_enabled_pclock stm32f103xb rcc' 0x40010000 = some r ∧ r ≠ 0 :=
  ⟨by decide, enable_pclock_idempotent stm32f103xb ⟨0, 0, 0⟩ 0x40010000 (by decide)⟩

/-- C3: with reference frequency 12000000 on the external-crystal path,
`clock_setup` selects multiplier 6; it writes `RCC->CFGR` at its second step,
and every value it writes to `RCC->CFGR` has the multiplier field (bits
18..21) equal to `6 - 2 = 4` and the PLL source bit 16 set. -/
theorem clock_setup_multiplier_six (hw : Cmsis) (hl : hw.FieldLayout) (env : Env) :
    clock_setup_div ⟨12000000, false⟩ = 6 ∧
    (∃ v, Event.write 174 Reg.RCC_CFGR v ∈ (clock_setup hw ⟨12000000, false⟩ env 2).trace) ∧
    ∀ n l v, Event.write l Reg.RCC_CFGR v ∈ (clock_setup hw ⟨12000000, false⟩ env n).trace →
      pllmulField v = 6 - 2 ∧ v.testBit RCC_CFGR_PLLSRC_Pos = true := by
  refine ⟨by decide, ⟨_, clock_setup_two hw _ env⟩, ?_⟩
  intro n l v h
  obtain ⟨h1, h2⟩ := cfgr_write_fields hw hl _ env n l v h
  exact ⟨h1.trans (by decide), h2.trans (by decide)⟩

/-- Witness for C3 on the device header values, with a harness whose registers
always read zero: the write of line 174 is `0x116400`. -/
theorem clock_setup_multiplier_six_witness :
    stm32f103xb.FieldLayout ∧
    Event.write 174 Reg.RCC_CFGR 0x116400 ∈
      (clock_setup stm32f103xb ⟨12000000, false⟩ ⟨fun _ => 0, fun _ => 0⟩ 2).trace ∧
    pllmulField 0x116400 = 6 - 2 ∧ (0x116400).testBit RCC_CFGR_PLLSRC_Pos = true :=
  ⟨by unfold Cmsis.FieldLayout; decide, by decide,
   (clock_setup_multiplier_six stm32f103xb (by unfold Cmsis.FieldLayout; decide)
      ⟨fun _ => 0, fun _ => 0⟩).2.2 2 174 0x116400 (by decide)⟩

/-- C8, counterexample: with the 12000000 crystal the write of line 174 is
`0x116400`, whose multiplier field is 4, while the multiplier
`CONFIG_CLOCK_FREQ / (CONFIG_CLOCK_REF_FREQ / 2)` of the claim is 12 and would
give the field 10. -/
theorem multiplier_not_from_halved_reference :
    ¬ (∀ l v, Event.write l Reg.RCC_CFGR v ∈
          (clock_setup stm32f103xb ⟨12000000, false⟩ ⟨fun _ => 0, fun _ => 0⟩ 2).trace →
        pllmulField v = CONFIG_CLOCK_FREQ / (12000000 / 2) - 2) := by
  intro h
  exact absurd (h 174 0x116400 (by decide)) (by decide)

/-- C8, amended: on the external-crystal path `clock_setup` derives the PLL
multiplier as `CONFIG_CLOCK_FREQ / CONFIG_CLOCK_REF_FREQ` (the reference is not
halved); when that multiplier lies in 2..17 every value written to `RCC->CFGR`
has the multiplier field equal to the multiplier minus the bias 2, and such a
write is made at the second step. -/
theorem clock_setup_multiplier_from_reference (hw : Cmsis) (hl : hw.FieldLayout)
    (cfg : Config) (env : Env) (hx : cfg.CONFIG_STM32_CLOCK_REF_INTERNAL = false)
    (h2 : 2 ≤ CONFIG_CLOCK_FREQ / cfg.CONFIG_CLOCK_REF_FREQ)
    (h17 : CONFIG_CLOCK_FREQ / cfg.CONFIG_CLOCK_REF_FREQ ≤ 17) :
    clock_setup_div cfg = CONFIG_CLOCK_FREQ / cfg.CONFIG_CLOCK_REF_FREQ ∧
    (∃ v, Event.write 174 Reg.RCC_CFGR v ∈ (clock_setup hw cfg env 2).trace) ∧
    ∀ n l v, Event.write l Reg.RCC_CFGR v ∈ (clock_setup hw cfg env n).trace →
      pllmulField v = CONFIG_CLOCK_FREQ / cfg.CONFIG_CLOCK_REF_FREQ - 2 := by
  have hd : clock_setup_div cfg = CONFIG_CLOCK_FREQ / cfg.CONFIG_CLOCK_REF_FREQ := by
    unfold clock_setup_div
    exact Nat.mod_eq_of_lt (lt_of_le_of_lt h17 (by decide))
  refine ⟨hd, ⟨_, clock_setup_two hw cfg env⟩, ?_⟩
  intro n l v h
  rw [(cfgr_write_fields hw hl cfg env n l v h).1, pllmulField_cfgr_crystal cfg hx, hd]
  unfold sub32
  omega

/-- Witness for the amended C8: the 12000000 crystal on the device header
values gives multiplier 6 and field 4. -/
theorem clock_setup_multiplier_from_reference_witness :
    (stm32f103xb.FieldLayout ∧ 2 ≤ CONFIG_CLOCK_FREQ / 12000000 ∧
      CONFIG_CLOCK_FREQ / 12000000 ≤ 17) ∧
    clock_setup_div ⟨12000000, false⟩ = CONFIG_CLOCK_FREQ / 12000000 ∧
    pllmulField 0x116400 = CONFIG_CLOCK_FREQ / 12000000 - 2 :=
  ⟨⟨by unfold Cmsis.FieldLayout; decide, by decide, by decide⟩,
   (clock_setup_multiplier_from_reference stm32f103xb (by unfold Cmsis.FieldLayout; decide)
      ⟨12000000, false⟩ ⟨fun _ => 0, fun _ => 0⟩ rfl (by decide) (by decide)).1,
   (clock_setup_multiplier_from_reference stm32f103xb (by unfold Cmsis.FieldLayout; decide)
      ⟨12000000, false⟩ ⟨fun _ => 0, fun _ => 0⟩ rfl (by decide) (by decide)).2.2 2 174 0x116400
      (by decide)⟩

/-- C4: in every execution of `clock_setup` against a harness that supplies
the reads of `RCC->CR`, every switch write (line 185) is preceded in the trace
by a poll of `RCC->CR` (line 181) that returned `RCC_CR_PLLRDY` set; for every
`n`, if the first `n` polls all lack the flag, then after those `n` polls the
control point is still the lock-wait loop and no access of line 185 has been
made; and once a poll returns the flag, the switch write is made. The same
holds by the values written: the switch write carries the code
`RCC_CFGR_SW_PLL` in the system-clock switch field (bits 0..1), every write to
`RCC->CFGR`, of whatever line, whose switch field is not zero is preceded by
such a poll, and while the polls lack the flag the only value written to
`RCC->CFGR` is that of line 174, whose switch field is zero. -/
theorem switch_waits_for_pll_lock (hw : Cmsis) (cfg : Config) (env : Env) :
    (∀ n earlier rest v,
      (clock_setup hw cfg env n).trace = earlier ++ Event.write 185 Reg.RCC_CFGR v :: rest →
      ∃ w, Event.read 181 Reg.RCC_CR w ∈ earlier ∧ w &&& hw.RCC_CR_PLLRDY ≠ 0) ∧
    (∀ n, (∀ k, k < n →
        env.RCC_CR (crReadsBeforePoll cfg + k) % 2 ^ 32 &&& hw.RCC_CR_PLLRDY = 0) →
      (clock_setup hw cfg env (4 + n)).pc = PC.waitLock ∧
      (clock_setup hw cfg env (4 + n)).crReads = crReadsBeforePoll cfg + n ∧
      ∀ e ∈ (clock_setup hw cfg env (4 + n)).trace, e.line ≠ 185) ∧
    (∀ n, (∀ k, k < n →
        env.RCC_CR (crReadsBeforePoll cfg + k) % 2 ^ 32 &&& hw.RCC_CR_PLLRDY = 0) →
      env.RCC_CR (crReadsBeforePoll cfg + n) % 2 ^ 32 &&& hw.RCC_CR_PLLRDY ≠ 0 →
      Event.write 185 Reg.RCC_CFGR (cfgr_switch hw cfg) ∈
        (clock_setup hw cfg env (4 + n + 2)).trace) ∧
    cfgr_switch hw cfg % 4 = hw.RCC_CFGR_SW_PLL % 4 ∧
    (hw.FieldLayout → ∀ n earlier rest l v,
      (clock_setup hw cfg env n).trace = earlier ++ Event.write l Reg.RCC_CFGR v :: rest →
      v % 4 ≠ 0 →
      v = cfgr_switch hw cfg ∧
      ∃ w, Event.read 181 Reg.RCC_CR w ∈ earlier ∧ w &&& hw.RCC_CR_PLLRDY ≠ 0) ∧
    (hw.FieldLayout → ∀ n, (∀ k, k < n →
        env.RCC_CR (crReadsBeforePoll cfg + k) % 2 ^ 32 &&& hw.RCC_CR_PLLRDY = 0) →
      ∀ l v, Event.write l Reg.RCC_CFGR v ∈ (clock_setup hw cfg env (4 + n)).trace →
        v = cfgr_prescaled hw cfg ∧ v % 4 = 0) := by
  have tagged : ∀ n earlier rest v,
      (clock_setup hw cfg env n).trace = earlier ++ Event.write 185 Reg.RCC_CFGR v :: rest →
      ∃ w, Event.read 181 Reg.RCC_CR w ∈ earlier ∧ w &&& hw.RCC_CR_PLLRDY ≠ 0 := by
    intro n earlier rest v h
    have inv := traceInv_reach hw cfg env n
    have hb := inv.bound _ (mem_of_split h)
    obtain ⟨w, hw1, hw2⟩ := inv.hasLock (by simpa using hb)
    exact ⟨w, mem_earlier_of_sorted inv.sorted h hw1 (by simp), hw2⟩
  have polls : ∀ n, (∀ k, k < n →
        env.RCC_CR (crReadsBeforePoll cfg + k) % 2 ^ 32 &&& hw.RCC_CR_PLLRDY = 0) →
      (clock_setup hw cfg env (4 + n)).pc = PC.waitLock ∧
      (clock_setup hw cfg env (4 + n)).crReads = crReadsBeforePoll cfg + n ∧
      ∀ e ∈ (clock_setup hw cfg env (4 + n)).trace, e.line ≠ 185 := by
    intro n h
    obtain ⟨h1, h2⟩ := clock_setup_polls hw cfg env n h
    refine ⟨h1, h2, ?_⟩
    intro e he
    have hb := (traceInv_reach hw cfg env (4 + n)).bound e he
    rw [h1] at hb
    simp only [PC.line] at hb
    omega
  refine ⟨tagged, polls, ?_, ?_, ?_, ?_⟩
  · intro n h hl
    exact (clock_setup_locks hw cfg env n h hl).2
  · have h4 : (4 : Nat) = 2 ^ 2 := rfl
    unfold cfgr_switch
    rw [h4, or_mod_two_pow, ← h4, cfgr_mod_four, Nat.zero_or]
  · intro hl n earlier rest l v h hv
    rcases (traceInv_reach hw cfg env n).cfgrWrites l v (mem_of_split h) with
      ⟨-, rfl⟩ | ⟨rfl, rfl⟩
    · exact absurd (cfgr_prescaled_mod_four hw hl cfg) hv
    · exact ⟨rfl, tagged n earlier rest _ h⟩
  · intro hl n h l v hmem
    rcases (traceInv_reach hw cfg env (4 + n)).cfgrWrites l v hmem with ⟨-, rfl⟩ | ⟨rfl, -⟩
    · exact ⟨rfl, cfgr_prescaled_mod_four hw hl cfg⟩
    · exact absurd rfl ((polls n h).2.2 _ hmem)

/-- Witness for C4: on the device header values with the 12000000 crystal and a
harness whose `RCC->CR` reads zero five times and then shows the lock flag,
three polls leave the configurator in the lock-wait loop with `0x116400`
(switch field 0) as the only value written to `RCC->CFGR`, and the fourth poll
is followed by the switch write `0x110002` (switch field 2), which has the
flagged poll among the accesses before it. -/
theorem switch_waits_for_pll_lock_witness :
    (stm32f103xb.FieldLayout ∧
      (∀ k, k < 3 → (fun i => if i < 5 then 0 else 0x02000000) (2 + k) % 2 ^ 32
        &&& stm32f103xb.RCC_CR_PLLRDY = 0) ∧
      (fun i => if i < 5 then 0 else 0x02000000) (2 + 3) % 2 ^ 32
        &&& stm32f103xb.RCC_CR_PLLRDY ≠ 0) ∧
    (clock_setup stm32f103xb ⟨12000000, false⟩
        ⟨fun i => if i < 5 then 0 else 0x02000000, fun _ => 0⟩ (4 + 3)).pc = PC.waitLock ∧
    Event.write 185 Reg.RCC_CFGR (cfgr_switch stm32f103xb ⟨12000000, false⟩) ∈
      (clock_setup stm32f103xb ⟨12000000, false⟩
        ⟨fun i => if i < 5 then 0 else 0x02000000, fun _ => 0⟩ (4 + 3 + 2)).trace ∧
    ((0x116400 : Nat) = cfgr_prescaled stm32f103xb ⟨12000000, false⟩ ∧ 0x116400 % 4 = 0) ∧
    ((0x110002 : Nat) = cfgr_switch stm32f103xb ⟨12000000, false⟩ ∧
      ∃ w, Event.read 181 Reg.RCC_CR w ∈
          [Event.read 165 Reg.RCC_CR 0, Event.write 165 Reg.RCC_CR 0x10000,
           Event.write 174 Reg.RCC_CFGR 0x116400,
           Event.read 175 Reg.RCC_CR 0, Event.write 175 Reg.RCC_CR 0x1000000,
           Event.write 178 Reg.FLASH_ACR 0x12,
           Event.read 181 Reg.RCC_CR 0, Event.read 181 Reg.RCC_CR 0,
           Event.read 181 Reg.RCC_CR 0, Event.read 181 Reg.RCC_CR 0x2000000] ∧
        w &&& stm32f103xb.RCC_CR_PLLRDY ≠ 0) :=
  ⟨⟨by unfold Cmsis.FieldLayout; decide, by decide, by decide⟩,
   ((switch_waits_for_pll_lock stm32f103xb ⟨12000000, false⟩
      ⟨fun i => if i < 5 then 0 else 0x02000000, fun _ => 0⟩).2.1 3 (by decide)).1,
   (switch_waits_for_pll_lock stm32f103xb ⟨12000000, false⟩
      ⟨fun i => if i < 5 then 0 else 0x02000000, fun _ => 0⟩).2.2.1 3 (by decide) (by decide),
   (switch_waits_for_pll_lock stm32f103xb ⟨12000000, false⟩
      ⟨fun i => if i < 5 then 0 else 0x02000000, fun _ => 0⟩).2.2.2.2.2
      (by unfold Cmsis.FieldLayout; decide) 3 (by decide) 174 0x116400 (by decide),
   (switch_waits_for_pll_lock stm32f103xb ⟨12000000, false⟩
      ⟨fun i => if i < 5 then 0 else 0x02000000, fun _ => 0⟩).2.2.2.2.1
      (by unfold Cmsis.FieldLayout; decide) 9 _ [] 185 0x110002 (by decide) (by decide)⟩

/-- C9: in every execution of `clock_setup` the write to `FLASH->ACR` (latency
field 2, prefetch bit set) is made by the fourth step; every write to
`FLASH->ACR` is that write of line 178, comes after a write to `RCC->CR` with
`RCC_CR_PLLON` set, and every write to `RCC->CFGR` before it has the
system-clock switch field (bits 0..1) zero; and the switch write of line 185
comes strictly after the flash write. -/
theorem flash_latency_before_switch (hw : Cmsis) (hl : hw.FieldLayout) (cfg : Config)
    (env : Env) :
    (flash_acr_value hw % 8 = 2 ∧
      flash_acr_value hw &&& hw.FLASH_ACR_PRFTBE = hw.FLASH_ACR_PRFTBE) ∧
    (∀ n, Event.write 178 Reg.FLASH_ACR (flash_acr_value hw) ∈
      (clock_setup hw cfg env (4 + n)).trace) ∧
    (∀ n earlier rest l v,
      (clock_setup hw cfg env n).trace = earlier ++ Event.write l Reg.FLASH_ACR v :: rest →
      l = 178 ∧ v = flash_acr_value hw ∧
      (∃ x, Event.write 175 Reg.RCC_CR x ∈ earlier ∧ x &&& hw.RCC_CR_PLLON = hw.RCC_CR_PLLON) ∧
      ∀ l' v', Event.write l' Reg.RCC_CFGR v' ∈ earlier → v' % 4 = 0) ∧
    (∀ n earlier rest v,
      (clock_setup hw cfg env n).trace = earlier ++ Event.write 185 Reg.RCC_CFGR v :: rest →
      Event.write 178 Reg.FLASH_ACR (flash_acr_value hw) ∈ earlier) := by
  refine ⟨flash_acr_value_fields hw hl, ?_, ?_, ?_⟩
  · intro n
    exact (traceInv_reach hw cfg env (4 + n)).hasFlash (pc_line_after_four hw cfg env n)
  · intro n earlier rest l v h
    have inv := traceInv_reach hw cfg env n
    obtain ⟨rfl, rfl⟩ := inv.flashWrites l v (mem_of_split h)
    have hb := inv.bound _ (mem_of_split h)
    refine ⟨rfl, rfl, ?_, ?_⟩
    · obtain ⟨w, hw1⟩ := inv.hasPllOn (by simpa using hb)
      exact ⟨_, mem_earlier_of_sorted inv.sorted h hw1 (by simp), or_and_self_right _ _⟩
    · intro l' v' h'
      have hle := line_le_of_mem_earlier inv.sorted h h'
      rcases inv.cfgrWrites l' v' (mem_of_mem_earlier h h') with ⟨-, rfl⟩ | ⟨rfl, -⟩
      · exact cfgr_prescaled_mod_four hw hl cfg
      · simp at hle
  · intro n earlier rest v h
    have inv := traceInv_reach hw cfg env n
    have hb := inv.bound _ (mem_of_split h)
    exact mem_earlier_of_sorted inv.sorted h (inv.hasFlash (by simp at hb; omega)) (by simp)

/-- Witness for C9 on the device header values: the flash write is `0x12`, and
in the nine-step execution of the C4 harness the switch write has the flash
write among the accesses before it. -/
theorem flash_latency_before_switch_witness :
    stm32f103xb.FieldLayout ∧
    flash_acr_value stm32f103xb = 0x12 ∧
    Event.write 178 Reg.FLASH_ACR (flash_acr_value stm32f103xb) ∈
      [Event.read 165 Reg.RCC_CR 0, Event.write 165 Reg.RCC_CR 0x10000,
       Event.write 174 Reg.RCC_CFGR 0x116400,
       Event.read 175 Reg.RCC_CR 0, Event.write 175 Reg.RCC_CR 0x1000000,
       Event.write 178 Reg.FLASH_ACR 0x12,
       Event.read 181 Reg.RCC_CR 0, Event.read 181 Reg.RCC_CR 0, Event.read 181 Reg.RCC_CR 0,
       Event.read 181 Reg.RCC_CR 0x2000000] :=
  ⟨by unfold Cmsis.FieldLayout; decide, by decide,
   (flash_latency_before_switch stm32f103xb (by unfold Cmsis.FieldLayout; decide)
      ⟨12000000, false⟩ ⟨fun i => if i < 5 then 0 else 0x02000000, fun _ => 0⟩).2.2.2 9
      _ [] 0x110002 (by decide)⟩

/-- C7, failing input: with `us_counter = 4294967295999` at entry and one tick
interrupt before the loop test, the counter has not gone backwards, yet the
target is `4294967295` while the first loop test reads `millis() = 0`, so the
condition `millis() < ms` is true at the initial check and `delay(0)` does not
leave the loop with zero iterations, whatever the fuel. -/
theorem delay_zero_spins_at_millis_wrap :
    readsAcrossMillisWrap 0 ≤ readsAcrossMillisWrap 1 ∧
    readsAcrossMillisWrap 1 < 2 ^ 64 ∧
    (0 + millis (readsAcrossMillisWrap 0)) % 2 ^ 32 = 4294967295 ∧
    millis (readsAcrossMillisWrap 1) = 0 ∧
    ∀ fuel, delay 0 readsAcrossMillisWrap fuel ≠ some 0 := by
  refine ⟨by decide, by decide, by decide, by decide, ?_⟩
  intro fuel h
  cases fuel with
  | zero => simp [delay, delay_wait] at h
  | succ fuel =>
    unfold delay delay_wait at h
    rw [if_pos (by decide)] at h
    have := delay_wait_ge _ _ _ _ _ h
    omega

/-- C11: for every counter value below `2^64 - 1` the tick interrupt handler
leaves `us_counter` one higher and every other field of the modelled state
unchanged; after `n` invocations without overflow the counter has grown by
exactly `n`, the other fields are still unchanged, and the counter is never
below its starting value. -/
theorem SysTick_Handler_increments_by_one (t : TimerRegs) (n : Nat)
    (h1 : t.us_counter < 2 ^ 64 - 1) (hn : t.us_counter + n < 2 ^ 64) :
    SysTick_Handler t = { t with us_counter := t.us_counter + 1 } ∧
    (SysTick_Handler^[n] t) = { t with us_counter := t.us_counter + n } ∧
    ∀ k, k < n → t.us_counter ≤ (SysTick_Handler^[k] t).us_counter ∧
      (SysTick_Handler^[k + 1] t).us_counter = (SysTick_Handler^[k] t).us_counter + 1 := by
  refine ⟨?_, ?_, ?_⟩
  · unfold SysTick_Handler
    rw [Nat.mod_eq_of_lt (by omega)]
  · obtain ⟨f1, f2, f3, f4, f5, f6, f7⟩ := SysTick_Handler_iterate_frame n t
    have f0 := SysTick_Handler_iterate_counter n t hn
    cases hs : SysTick_Handler^[n] t
    rw [hs] at f0 f1 f2 f3 f4 f5 f6 f7
    cases t
    simp_all
  · intro k hk
    have hk1 := SysTick_Handler_iterate_counter k t (by omega)
    refine ⟨by omega, ?_⟩
    rw [SysTick_Handler_iterate_counter (k + 1) t (by omega), hk1]
    omega

/-- Witness for C11: three ticks from the counter value 41 on a state with
distinct register contents. -/
theorem SysTick_Handler_increments_by_one_witness :
    ((41 : Nat) < 2 ^ 64 - 1 ∧ 41 + 3 < 2 ^ 64) ∧
    SysTick_Handler ⟨41, 1, 2, 3, 4, 5, 6, 7⟩ = ⟨42, 1, 2, 3, 4, 5, 6, 7⟩ ∧
    (SysTick_Handler^[3] ⟨41, 1, 2, 3, 4, 5, 6, 7⟩) = ⟨44, 1, 2, 3, 4, 5, 6, 7⟩ :=
  ⟨by decide,
   (SysTick_Handler_increments_by_one ⟨41, 1, 2, 3, 4, 5, 6, 7⟩ 3 (by decide) (by decide)).1,
   (SysTick_Handler_increments_by_one ⟨41, 1, 2, 3, 4, 5, 6, 7⟩ 3 (by decide) (by decide)).2.1⟩

/-- C17: for every microsecond count `us` with `72 * us < 2^32` (that is,
`us <= 59652323`), `timer_from_us us` is the exact product `72 * us`, without
wraparound, and `us_from_timer (timer_from_us us) = us`. -/
theorem timer_from_us_exact (us : Nat) (h : 72 * us < 2 ^ 32) :
    timer_from_us us = 72 * us ∧ us_from_timer (timer_from_us us) = us ∧
    (72 * us < 2 ^ 32 ↔ us ≤ 59652323) := by
  unfold us_from_timer timer_from_us CONFIG_CLOCK_FREQ
  norm_num at h ⊢
  omega

/-- Witness for C17 at the largest admissible count `us = 59652323`. -/
theorem timer_from_us_exact_witness :
    72 * 59652323 < 2 ^ 32 ∧ timer_from_us 59652323 = 72 * 59652323 ∧
    us_from_timer (timer_from_us 59652323) = 59652323 :=
  ⟨by decide, (timer_from_us_exact 59652323 (by decide)).1,
   (timer_from_us_exact 59652323 (by decide)).2.1⟩

/-- C18: for all 32-bit `a` and `b`: `timer_is_before a a` is false; when
`a != b` and `(a - b) mod 2^32 != 2^31`, exactly one of `timer_is_before a b`
and `timer_is_before b a` is true; when `(a - b) mod 2^32 = 2^31`, both are. -/
theorem timer_is_before_strict_nearby (a b : Nat) (ha : a < 2 ^ 32) (hb : b < 2 ^ 32) :
    timer_is_before a a = 0 ∧
    (a ≠ b → sub32 a b ≠ 2 ^ 31 →
      (timer_is_before a b = 1 ∧ timer_is_before b a = 0) ∨
      (timer_is_before a b = 0 ∧ timer_is_before b a = 1)) ∧
    (sub32 a b = 2 ^ 31 → timer_is_before a b = 1 ∧ timer_is_before b a = 1) := by
  unfold timer_is_before toInt32 sub32
  norm_num at ha hb ⊢
  refine ⟨?_, ?_, ?_⟩
  · split_ifs <;> omega
  · intro hab h31
    split_ifs <;> omega
  · intro h31
    split_ifs <;> omega

/-- Witness for C18: `a = 0`, `b = 2^31` are at distance `2^31` and each is
before the other; `a = 5`, `b = 9` are ordered one way only. -/
theorem timer_is_before_strict_nearby_witness :
    ((0 : Nat) < 2 ^ 32 ∧ 2 ^ 31 < 2 ^ 32 ∧ sub32 0 (2 ^ 31) = 2 ^ 31) ∧
    (timer_is_before 0 (2 ^ 31) = 1 ∧ timer_is_before (2 ^ 31) 0 = 1) ∧
    ((timer_is_before 5 9 = 1 ∧ timer_is_before 9 5 = 0) ∨
      (timer_is_before 5 9 = 0 ∧ timer_is_before 9 5 = 1)) :=
  ⟨by decide,
   (timer_is_before_strict_nearby 0 (2 ^ 31) (by decide) (by decide)).2.2 (by decide),
   (timer_is_before_strict_nearby 5 9 (by decide) (by decide)).2.1 (by decide) (by decide)⟩

/-- C15: for every `usecs` with `72 * usecs < 2^31`, every 32-bit cycle count
`s` read at entry and `end = (s + 72 * usecs) mod 2^32`: the loop condition
`timer_is_before t end` is true for every reading `t` with
`(t - s) mod 2^32 < 72 * usecs` and false for every reading with
`72 * usecs <= (t - s) mod 2^32 < 2^31`; hence, when the first `n` readings in
the loop are of the first kind and the next one of the second, `delayMicroseconds`
returns after exactly `n` busy-wait iterations. -/
theorem delayMicroseconds_not_early (usecs : Nat) (hu : 72 * usecs < 2 ^ 31) :
    timer_from_us usecs = 72 * usecs ∧
    (∀ s t, s < 2 ^ 32 → t < 2 ^ 32 → sub32 t s < 72 * usecs →
      timer_is_before t ((s + 72 * usecs) % 2 ^ 32) = 1) ∧
    (∀ s t, s < 2 ^ 32 → t < 2 ^ 32 → 72 * usecs ≤ sub32 t s → sub32 t s < 2 ^ 31 →
      timer_is_before t ((s + 72 * usecs) % 2 ^ 32) = 0) ∧
    (∀ (core : CoreCmsis) (regs : TimerRegs) (cyc : Nat → Nat) (n fuel : Nat),
      (∀ k, k < n → sub32 (cyc (k + 1)) (cyc 0) < 72 * usecs) →
      72 * usecs ≤ sub32 (cyc (n + 1)) (cyc 0) → sub32 (cyc (n + 1)) (cyc 0) < 2 ^ 31 →
      n < fuel →
      ∃ regs1, delayMicroseconds core regs usecs cyc fuel = some (regs1, n)) := by
  have hf : timer_from_us usecs = 72 * usecs := by
    unfold timer_from_us CONFIG_CLOCK_FREQ
    norm_num at hu ⊢
    omega
  have hm : ∀ x : Nat, x % 2 ^ 32 < 2 ^ 32 := fun x => Nat.mod_lt _ (by decide)
  refine ⟨hf, ?_, ?_, ?_⟩
  · intro s t hs ht h
    exact timer_is_before_deadline s t _ hu h
  · intro s t hs ht h h31
    exact timer_not_before_deadline s t _ hs h h31
  · intro core regs cyc n fuel hbefore hafter h31 hfuel
    unfold delayMicroseconds
    simp only [hf]
    rw [delayMicroseconds_wait_exit _ cyc n ?_ ?_ fuel 0 (Nat.zero_le n) (by omega)]
    · exact ⟨_, rfl⟩
    · intro k hk
      rw [timer_is_before_deadline _ _ _ hu
        (by rw [sub32_mod]; exact hbefore k hk)]
      decide
    · exact timer_not_before_deadline _ _ _ (hm _)
        (by rw [sub32_mod]; exact hafter) (by rw [sub32_mod]; exact h31)

/-- Witness for C15: `usecs = 2` (144 cycles) started at `s = 0xFFFFFFF0`, so
that the deadline wraps to `0x80`; the readings `0xFFFFFFF8`, `0x10`, `0x7F`
are before the deadline and the reading `0x80` ends the loop after three
iterations. -/
theorem delayMicroseconds_not_early_witness :
    72 * 2 < 2 ^ 31 ∧
    timer_is_before 0x7F ((0xFFFFFFF0 + 72 * 2) % 2 ^ 32) = 1 ∧
    timer_is_before 0x80 ((0xFFFFFFF0 + 72 * 2) % 2 ^ 32) = 0 ∧
    ∃ regs1, delayMicroseconds core_cm3 ⟨0, 0, 0, 0, 0, 0, 0, 0⟩ 2
      (fun k => [0xFFFFFFF0, 0xFFFFFFF8, 0x10, 0x7F, 0x80].getD k 0x80) 4 = some (regs1, 3) :=
  ⟨by decide,
   (delayMicroseconds_not_early 2 (by decide)).2.1 0xFFFFFFF0 0x7F (by decide) (by decide)
     (by decide),
   (delayMicroseconds_not_early 2 (by decide)).2.2.1 0xFFFFFFF0 0x80 (by decide) (by decide)
     (by decide) (by decide),
   (delayMicroseconds_not_early 2 (by decide)).2.2.2 core_cm3 ⟨0, 0, 0, 0, 0, 0, 0, 0⟩
     (fun k => [0xFFFFFFF0, 0xFFFFFFF8, 0x10, 0x7F, 0x80].getD k 0x80) 3 4
     (by decide) (by decide) (by decide) (by decide)⟩

/-- C16, evaluation: `timer_init` writes the reload value `timer_from_us 1 = 72`
to `SysTick->LOAD` from every state, so with a period of reload value plus one
core clocks the tick interrupt comes every 73 core clocks, not every
`CONFIG_CLOCK_FREQ / 1000000 = 72`. -/
theorem timer_init_period_is_73 :
    (∀ core t, (timer_init core t).SysTick_LOAD = timer_from_us 1) ∧
    timer_from_us 1 = 72 ∧
    CONFIG_CLOCK_FREQ / 1000000 = 72 ∧
    (timer_init core_cm3 ⟨0, 0, 0, 0, 0, 0, 0, 0⟩).SysTick_LOAD + 1 = 73 ∧
    (timer_init core_cm3 ⟨0, 0, 0, 0, 0, 0, 0, 0⟩).SysTick_LOAD + 1
      ≠ CONFIG_CLOCK_FREQ / 1000000 :=
  ⟨fun _ _ => rfl, rfl, rfl, rfl, by decide⟩

/-- C12, evaluation: on the device header values with the 12000000 crystal,
whenever `clock_setup` has completed the value last written to `RCC->CFGR` is
`cfgr | RCC_CFGR_SW_PLL = 0x110002`, in which the prescaler codes
`RCC_CFGR_PPRE1_DIV2`, `RCC_CFGR_PPRE2_DIV2` and `RCC_CFGR_ADCPRE_DIV4` are all
clear, although the write of line 174 (`0x116400`) had set them; a harness that
shows the lock flag and the PLL status at once completes in seven steps. -/
theorem clock_setup_final_cfgr_drops_prescalers :
    (∀ env n, (clock_setup stm32f103xb ⟨12000000, false⟩ env n).pc = PC.done →
      lastWrite Reg.RCC_CFGR (clock_setup stm32f103xb ⟨12000000, false⟩ env n).trace
        = some 0x110002) ∧
    (clock_setup stm32f103xb ⟨12000000, false⟩ ⟨fun _ => 0x02000000, fun _ => 0x8⟩ 7).pc
      = PC.done ∧
    lastWrite Reg.RCC_CFGR
      (clock_setup stm32f103xb ⟨12000000, false⟩ ⟨fun _ => 0x02000000, fun _ => 0x8⟩ 7).trace
      = some 0x110002 ∧
    (0x110002 &&& stm32f103xb.RCC_CFGR_PPRE1_DIV2 = 0 ∧
      0x110002 &&& stm32f103xb.RCC_CFGR_PPRE2_DIV2 = 0 ∧
      0x110002 &&& stm32f103xb.RCC_CFGR_ADCPRE_DIV4 = 0) ∧
    (cfgr_prescaled stm32f103xb ⟨12000000, false⟩ = 0x116400 ∧
      0x116400 &&& stm32f103xb.RCC_CFGR_PPRE1_DIV2 = stm32f103xb.RCC_CFGR_PPRE1_DIV2 ∧
      0x116400 &&& stm32f103xb.RCC_CFGR_PPRE2_DIV2 = stm32f103xb.RCC_CFGR_PPRE2_DIV2 ∧
      0x116400 &&& stm32f103xb.RCC_CFGR_ADCPRE_DIV4 = stm32f103xb.RCC_CFGR_ADCPRE_DIV4) ∧
    get_pclock_frequency stm32f103xb.APB1PERIPH_BASE = CONFIG_CLOCK_FREQ / 2 := by
  refine ⟨?_, by decide, by decide, by decide, by decide, rfl⟩
  intro env n h
  have := lastWrite_cfgr_after_switch stm32f103xb ⟨12000000, false⟩ env n
    (by rw [h]; simp [PC.line])
  rw [this]
  decide

/-- Remark on the branch of lines 168-173, which the constant of line 28
disables: its expression gives `div2 = 18`, so `div2 - 2 = 16` exceeds 15 and
the shifted value `0x400000` would set bit 22 of `RCC->CFGR` and leave the
multiplier field (bits 18..21) zero. On the crystal branch with the 12000000
reference the value is 4. -/
theorem internal_path_multiplier_overflows_field :
    (∀ ref, clock_setup_cfgr ⟨ref, true⟩ = 0x400000) ∧
    sub32 ((CONFIG_CLOCK_FREQ / 8000000) * 2) 2 = 16 ∧ ¬ (16 ≤ 15) ∧
    (sub32 ((CONFIG_CLOCK_FREQ / 8000000) * 2) 2 <<< RCC_CFGR_PLLMULL_Pos) % 2 ^ 32 = 2 ^ 22 ∧
    pllmulField 0x400000 = 0 ∧ (0x400000).testBit 22 = true ∧
    Event.write 174 Reg.RCC_CFGR 0x406400 ∈
      (clock_setup stm32f103xb ⟨12000000, true⟩ ⟨fun _ => 0, fun _ => 0⟩ 2).trace ∧
    (sub32 (clock_setup_div ⟨12000000, false⟩) 2 = 4 ∧
      clock_setup_cfgr ⟨12000000, false⟩ = 2 ^ 16 ||| 4 <<< 18) := by
  refine ⟨fun ref => ?_, by decide, by decide, by decide, by decide, by decide, by decide,
    by decide, by decide⟩
  simp [clock_setup_cfgr]
  decide

/-- C13: for every state of the enable registers and every 32-bit base address
at or above `APB1PERIPH_BASE` whose bit position is below 32, `enable_pclock`
succeeds and works on exactly one register, chosen by address range
(`APB1ENR` below `APB2PERIPH_BASE`, else `APB2ENR` below `AHBPERIPH_BASE`, else
`AHBENR`): the bit position is `(base - domain_base) / 0x400`, that bit is set,
every other bit of that register and both other registers are unchanged, and
`is_enabled_pclock` returns non-zero exactly when that bit of that register is
set. -/
theorem enable_pclock_sets_one_bit (hw : Cmsis) (rcc : RccEnable) (periph_base : Nat)
    (hb : periph_base < 2 ^ 32) (h1 : hw.APB1PERIPH_BASE ≤ periph_base)
    (hpos : pclock_pos hw periph_base < 32) :
    ∃ rcc', enable_pclock hw rcc periph_base = some rcc' ∧
      (periph_base < hw.APB2PERIPH_BASE →
        pclock_pos hw periph_base = (periph_base - hw.APB1PERIPH_BASE) / 0x400 ∧
        (∀ i, rcc'.APB1ENR.testBit i =
          (rcc.APB1ENR.testBit i || decide (i = pclock_pos hw periph_base))) ∧
        rcc'.APB2ENR = rcc.APB2ENR ∧ rcc'.AHBENR = rcc.AHBENR ∧
        ∀ r : RccEnable, ∃ v, is_enabled_pclock hw r periph_base = some v ∧
          (v ≠ 0 ↔ r.APB1ENR.testBit (pclock_pos hw periph_base) = true)) ∧
      (¬ periph_base < hw.APB2PERIPH_BASE → periph_base < hw.AHBPERIPH_BASE →
        pclock_pos hw periph_base = (periph_base - hw.APB2PERIPH_BASE) / 0x400 ∧
        (∀ i, rcc'.APB2ENR.testBit i =
          (rcc.APB2ENR.testBit i || decide (i = pclock_pos hw periph_base))) ∧
        rcc'.APB1ENR = rcc.APB1ENR ∧ rcc'.AHBENR = rcc.AHBENR ∧
        ∀ r : RccEnable, ∃ v, is_enabled_pclock hw r periph_base = some v ∧
          (v ≠ 0 ↔ r.APB2ENR.testBit (pclock_pos hw periph_base) = true)) ∧
      (¬ periph_base < hw.APB2PERIPH_BASE → ¬ periph_base < hw.AHBPERIPH_BASE →
        pclock_pos hw periph_base = (periph_base - hw.AHBPERIPH_BASE) / 0x400 ∧
        (∀ i, rcc'.AHBENR.testBit i =
          (rcc.AHBENR.testBit i || decide (i = pclock_pos hw periph_base))) ∧
        rcc'.APB1ENR = rcc.APB1ENR ∧ rcc'.APB2ENR = rcc.APB2ENR ∧
        ∀ r : RccEnable, ∃ v, is_enabled_pclock hw r periph_base = some v ∧
          (v ≠ 0 ↔ r.AHBENR.testBit (pclock_pos hw periph_base) = true)) := by
  by_cases c1 : periph_base < hw.APB2PERIPH_BASE
  · have hp : pclock_pos hw periph_base = sub32 periph_base hw.APB1PERIPH_BASE / 0x400 := by
      simp [pclock_pos, c1]
    have he : enable_pclock hw rcc periph_base
        = some { rcc with APB1ENR := rcc.APB1ENR ||| 2 ^ pclock_pos hw periph_base } := by
      rw [hp] at hpos ⊢
      simp [enable_pclock, shl1, c1, hpos]
    refine ⟨_, he, fun _ => ⟨?_, fun i => testBit_or_two_pow _ _ i, rfl, rfl, fun r => ?_⟩,
      fun h => absurd c1 h, fun h => absurd c1 h⟩
    · rw [hp, sub32_of_le _ _ hb h1]
    · refine ⟨toInt32 (r.APB1ENR &&& 2 ^ pclock_pos hw periph_base), ?_,
        toInt32_and_two_pow_ne_zero _ _ hpos⟩
      rw [hp] at hpos ⊢
      simp [is_enabled_pclock, shl1, c1, hpos]
  · by_cases c2 : periph_base < hw.AHBPERIPH_BASE
    · have hp : pclock_pos hw periph_base = sub32 periph_base hw.APB2PERIPH_BASE / 0x400 := by
        simp [pclock_pos, c1, c2]
      have he : enable_pclock hw rcc periph_base
          = some { rcc with APB2ENR := rcc.APB2ENR ||| 2 ^ pclock_pos hw periph_base } := by
        rw [hp] at hpos ⊢
        simp [enable_pclock, shl1, c1, c2, hpos]
      refine ⟨_, he, fun h => absurd h c1,
        fun _ _ => ⟨?_, fun i => testBit_or_two_pow _ _ i, rfl, rfl, fun r => ?_⟩,
        fun _ h => absurd c2 h⟩
      · rw [hp, sub32_of_le _ _ hb (Nat.le_of_not_lt c1)]
      · refine ⟨toInt32 (r.APB2ENR &&& 2 ^ pclock_pos hw periph_base), ?_,
          toInt32_and_two_pow_ne_zero _ _ hpos⟩
        rw [hp] at hpos ⊢
        simp [is_enabled_pclock, shl1, c1, c2, hpos]
    · have hp : pclock_pos hw periph_base = sub32 periph_base hw.AHBPERIPH_BASE / 0x400 := by
        simp [pclock_pos, c1, c2]
      have he : enable_pclock hw rcc periph_base
          = some { rcc with AHBENR := rcc.AHBENR ||| 2 ^ pclock_pos hw periph_base } := by
        rw [hp] at hpos ⊢
        simp [enable_pclock, shl1, c1, c2, hpos]
      refine ⟨_, he, fun h => absurd h c1, fun _ h => absurd h c2,
        fun _ _ => ⟨?_, fun i => testBit_or_two_pow _ _ i, rfl, rfl, fun r => ?_⟩⟩
      · rw [hp, sub32_of_le _ _ hb (Nat.le_of_not_lt c2)]
      · refine ⟨toInt32 (r.AHBENR &&& 2 ^ pclock_pos hw periph_base), ?_,
          toInt32_and_two_pow_ne_zero _ _ hpos⟩
        rw [hp] at hpos ⊢
        simp [is_enabled_pclock, shl1, c1, c2, hpos]

/-- Witness for C13 on the device header values: `AFIO_BASE = 0x40010000` is
neither below `APB2PERIPH_BASE` nor at or above `AHBPERIPH_BASE`, its bit
position is 0, and enabling it from `APB2ENR = 0x4` gives `0x5` with the other
registers unchanged. -/
theorem enable_pclock_sets_one_bit_witness :
    ((0x40010000 : Nat) < 2 ^ 32 ∧ stm32f103xb.APB1PERIPH_BASE ≤ 0x40010000 ∧
      pclock_pos stm32f103xb 0x40010000 < 32) ∧
    (¬ 0x40010000 < stm32f103xb.APB2PERIPH_BASE ∧ 0x40010000 < stm32f103xb.AHBPERIPH_BASE) ∧
    pclock_pos stm32f103xb 0x40010000 = 0 ∧
    enable_pclock stm32f103xb ⟨0x10, 0x4, 0x1⟩ 0x40010000 = some ⟨0x10, 0x5, 0x1⟩ ∧
    ∃ rcc', enable_pclock stm32f103xb ⟨0x10, 0x4, 0x1⟩ 0x40010000 = some rcc' ∧
      pclock_pos stm32f103xb 0x40010000
        = (0x40010000 - stm32f103xb.APB2PERIPH_BASE) / 0x400 ∧
      rcc'.APB1ENR = 0x10 ∧ rcc'.AHBENR = 0x1 := by
  refine ⟨by decide, by decide, by decide, by decide, ?_⟩
  obtain ⟨rcc', h1, -, h2, -⟩ :=
    enable_pclock_sets_one_bit stm32f103xb ⟨0x10, 0x4, 0x1⟩ 0x40010000
      (by decide) (by decide) (by decide)
  obtain ⟨h3, -, h4, h5, -⟩ := h2 (by decide) (by decide)
  exact ⟨rcc', h1, h3, h4, h5⟩

/-- C19: for every pin number, mode, pull value and prior register contents
for which the clock-enable shift of the port is defined, `gpio_peripheral`
succeeds and, with `pos = gpio mod 16`, writes the selected code `cfg` into
field `pos mod 8` of `CRL` when `pos < 8` and of `CRH` when `pos >= 8`, keeps
the other seven fields of that register and the whole other register, and
leaves the other ports alone; `cfg <= 0xF`, and it is 0x1 for plain output, 0x5
for open-drain output, 0x0 for analog, 0x4 for input with pull 0 and 0x8 for
input with pull not 0. -/
theorem gpio_peripheral_config_field (hw : Cmsis) (gh : GpioHeader) (st : GpioState)
    (gpio mode : Nat) (pullup : Int) (hd : gh.ModesDistinct)
    (hclk : sub32 (gh.digital_regs (gh.GPIO2PORT gpio)) hw.APB2PERIPH_BASE / 0x400 < 32) :
    ∃ st', gpio_peripheral hw gh st gpio mode pullup = some st' ∧
      gpio_cfg gh mode pullup ≤ 0xF ∧
      ((mode = gh.GPIO_OUTPUT → gpio_cfg gh mode pullup = 0x1) ∧
        (mode = gh.GPIO_OUTPUT ||| gh.GPIO_OPEN_DRAIN → gpio_cfg gh mode pullup = 0x5) ∧
        (mode = gh.GPIO_ANALOG → gpio_cfg gh mode pullup = 0x0) ∧
        (mode = gh.GPIO_INPUT → pullup = 0 → gpio_cfg gh mode pullup = 0x4) ∧
        (mode = gh.GPIO_INPUT → pullup ≠ 0 → gpio_cfg gh mode pullup = 0x8)) ∧
      (gpio % 16 < 8 →
        cfgField (st'.ports (gh.GPIO2PORT gpio)).CRL (gpio % 16 % 8) = gpio_cfg gh mode pullup ∧
        (∀ j, j < 8 → j ≠ gpio % 16 % 8 →
          cfgField (st'.ports (gh.GPIO2PORT gpio)).CRL j
            = cfgField (st.ports (gh.GPIO2PORT gpio)).CRL j) ∧
        (st'.ports (gh.GPIO2PORT gpio)).CRH = (st.ports (gh.GPIO2PORT gpio)).CRH) ∧
      (8 ≤ gpio % 16 →
        cfgField (st'.ports (gh.GPIO2PORT gpio)).CRH (gpio % 16 % 8) = gpio_cfg gh mode pullup ∧
        (∀ j, j < 8 → j ≠ gpio % 16 % 8 →
          cfgField (st'.ports (gh.GPIO2PORT gpio)).CRH j
            = cfgField (st.ports (gh.GPIO2PORT gpio)).CRH j) ∧
        (st'.ports (gh.GPIO2PORT gpio)).CRL = (st.ports (gh.GPIO2PORT gpio)).CRL) ∧
      ∀ p, p ≠ gh.GPIO2PORT gpio → st'.ports p = st.ports p := by
  obtain ⟨d1, d2, d3, d4, d5, d6⟩ := hd
  have hc := gpio_cfg_le gh mode pullup
  have hc16 : gpio_cfg gh mode pullup < 16 := Nat.lt_succ_of_le hc
  have hk : gpio % 16 % 8 < 8 := Nat.mod_lt _ (by decide)
  have h8 := and_eight_ne_zero (gpio % 16) (Nat.mod_lt _ (by decide))
  have hen : gpio_clock_enable hw st.rcc (gh.digital_regs (gh.GPIO2PORT gpio))
      = some { st.rcc with APB2ENR := st.rcc.APB2ENR |||
          2 ^ (sub32 (gh.digital_regs (gh.GPIO2PORT gpio)) hw.APB2PERIPH_BASE / 0x400) } := by
    simp [gpio_clock_enable, shl1, hclk]
  unfold gpio_peripheral
  simp only [hen]
  refine ⟨_, rfl, hc, ⟨?_, ?_, ?_, ?_, ?_⟩, ?_, ?_, ?_⟩
  · intro h
    simp [gpio_cfg, h, d1.symm]
  · intro h
    simp [gpio_cfg, h, d2.symm, d4.symm]
  · intro h
    simp [gpio_cfg, h, d3.symm, d5.symm, d6.symm]
  · intro h h0
    simp [gpio_cfg, h, h0]
  · intro h h0
    simp [gpio_cfg, h, h0]
  · intro hlt
    have hn : ¬ (gpio % 16 &&& 0x8 ≠ 0) := fun h => absurd (h8.1 h) (by omega)
    simp only [Function.update_same, if_neg hn]
    refine ⟨?_, ?_, ?_⟩
    · split_ifs <;> exact cfgField_gpio_set_field_same _ _ _ hk hc16
    · intro j hj hjk
      split_ifs <;> exact cfgField_gpio_set_field_other _ _ _ _ hj hjk hc16
    · split_ifs <;> rfl
  · intro hge
    have hp : gpio % 16 &&& 0x8 ≠ 0 := h8.2 hge
    simp only [Function.update_same, if_pos hp]
    refine ⟨?_, ?_, ?_⟩
    · split_ifs <;> exact cfgField_gpio_set_field_same _ _ _ hk hc16
    · intro j hj hjk
      split_ifs <;> exact cfgField_gpio_set_field_other _ _ _ _ hj hjk hc16
    · split_ifs <;> rfl
  · intro p hp
    exact Function.update_noteq hp _ _

/-- Witness for C19: pin 13 of port 0 set to plain output on registers that
hold the reset value `0x44444444`: field 5 of `CRH` becomes 1 (`0x44144444`)
and `CRL` is unchanged. -/
theorem gpio_peripheral_config_field_witness :
    (exampleGpioHeader.ModesDistinct ∧
      sub32 (exampleGpioHeader.digital_regs (exampleGpioHeader.GPIO2PORT 13))
        stm32f103xb.APB2PERIPH_BASE / 0x400 < 32) ∧
    ∃ st', gpio_peripheral stm32f103xb exampleGpioHeader
        ⟨⟨0, 0, 0⟩, fun _ => ⟨0x44444444, 0x44444444, 0⟩, 0⟩ 13 1 0 = some st' ∧
      cfgField (st'.ports 0).CRH 5 = 0x1 ∧
      (∀ j, j < 8 → j ≠ 5 → cfgField (st'.ports 0).CRH j = 4) ∧
      (st'.ports 0).CRL = 0x44444444 := by
  refine ⟨⟨by unfold GpioHeader.ModesDistinct; decide, by decide⟩, ?_⟩
  obtain ⟨st', h1, -, hcode, -, h8, -⟩ :=
    gpio_peripheral_config_field stm32f103xb exampleGpioHeader
      ⟨⟨0, 0, 0⟩, fun _ => ⟨0x44444444, 0x44444444, 0⟩, 0⟩ 13 1 0
      (by unfold GpioHeader.ModesDistinct; decide) (by decide)
  obtain ⟨f1, f2, f3⟩ := h8 (by decide)
  refine ⟨st', h1, f1.trans (hcode.1 rfl), ?_, f3⟩
  intro j hj hj5
  have key : ∀ i : Fin 8, cfgField 0x44444444 i.val = 4 := by decide
  exact (f2 j hj hj5).trans (key ⟨j, hj⟩)

end Stm32f1
